import Mathlib

/-!
# Social distancing system: control loop, mode toggle and display driver

A shallow embedding of `main.cpp` and of the parts of `lcd1602.cpp` that the
main program calls.  Global variables of the program become fields of `State`;
every call that touches a peripheral is recorded, in program order, in the
field `trace`.  Values that the hardware supplies (the encoder count returned
by `encoder.getPulses()`, the distance returned by `Ultrasonic()`, the timer
reading inside `Ultrasonic`) are arguments of the functions that consume them.
-/

namespace SocialDistancing

/-! ## Display driver (`lcd1602.h`, `lcd1602.cpp`) -/

/-- Instruction code of `lcd1602.h`: clear display. -/
def LCD_CLEARDISPLAY : Nat := 0x01

/-- Instruction code of `lcd1602.h`: return home. -/
def LCD_RETURNHOME : Nat := 0x02

/-- Instruction code of `lcd1602.h`: set the character memory address. -/
def LCD_SETDDRAMADDR : Nat := 0x80

/-- Register-select bit of `lcd1602.h`: set for character data, clear for an
instruction. -/
def Rs : Nat := 0x01

/-- The display as the driver sees it: the character memory of the controller,
indexed by its 7-bit address (row 0 starts at `0x00`, row 1 at `0x40`, as in
`row_offsets`), and the address at which the next character will be stored. -/
structure CSE321_LCD where
  /-- Character stored at each address of the display memory. -/
  ddram : Nat → Char
  /-- Address counter: where the next character goes. -/
  cursor : Nat

namespace CSE321_LCD

/-- Number of rows, fixed by the constructor call `lcd(16, 2, LCD_5x8DOTS, PF_0, PF_1)`
of `main.cpp`; the field is private and assigned nowhere else. -/
def _rows : Nat := 2

/-- Number of columns, fixed by the same constructor call. -/
def _cols : Nat := 16

/-- Table of `setCursor`: first address of each display row. -/
def row_offsets : List Nat := [0x00, 0x40, 0x14, 0x54]

/-- Address that follows `a` when the controller stores a character in
two-line mode with the entry mode `begin` selects (left to right, no display
shift): each row is 40 addresses long, the first row is followed by the second
and the second by the first. -/
def nextAddress (a : Nat) : Nat :=
  if a = 0x27 then 0x40 else if a = 0x67 then 0x00 else (a + 1) % 0x80

/-- Controller side of `send(value, Rs)`: store the character at the address
counter and advance the counter. -/
def writeData (lcd : CSE321_LCD) (value : Char) : CSE321_LCD :=
  { ddram := fun a => if a = lcd.cursor then value else lcd.ddram a,
    cursor := nextAddress lcd.cursor }

/-- Controller side of `send(value, 0)` for the instructions the main program
issues.  `LCD_CLEARDISPLAY` is, in the words of the driver, "clear display, set
cursor position to zero" and "Remove all the characters currently shown";
`LCD_RETURNHOME` is "set cursor position to zero"; an instruction with bit 7
set loads the address counter.  The remaining instructions (entry mode, display
control, shifts, function set, character generator) are left without effect on
the character memory. -/
def instruction (lcd : CSE321_LCD) (value : Nat) : CSE321_LCD :=
  if value ≥ LCD_SETDDRAMADDR then { lcd with cursor := value % 0x80 }
  else if value = LCD_CLEARDISPLAY then { ddram := fun _ => ' ', cursor := 0 }
  else if value = LCD_RETURNHOME then { lcd with cursor := 0 }
  else lcd

/-- Source `CSE321_LCD::command`: `send(value, 0)`, one instruction byte (the
two 4-bit transfers of `send` are taken as one delivery of the byte). -/
def command (lcd : CSE321_LCD) (value : Nat) : CSE321_LCD :=
  instruction lcd (value % 256)

/-- Source `CSE321_LCD::clear`: `command(LCD_CLEARDISPLAY)`. -/
def clear (lcd : CSE321_LCD) : CSE321_LCD :=
  command lcd LCD_CLEARDISPLAY

/-- Source `CSE321_LCD::home`: `command(LCD_RETURNHOME)`. -/
def home (lcd : CSE321_LCD) : CSE321_LCD :=
  command lcd LCD_RETURNHOME

/-- Source `CSE321_LCD::setCursor`: rows beyond `_rows` are replaced by the last
row, then `command(LCD_SETDDRAMADDR | (col + row_offsets[row]))`. -/
def setCursor (lcd : CSE321_LCD) (col row : Nat) : CSE321_LCD :=
  let row := if row > _rows then _rows - 1 else row
  command lcd (LCD_SETDDRAMADDR ||| (col + row_offsets.getD row 0))

/-- Source `CSE321_LCD::print`: `send(*text, Rs)` for each character up to the
terminating NUL (the end of the list stands for the terminator too). -/
def print (lcd : CSE321_LCD) : List Char → CSE321_LCD
  | [] => lcd
  | c :: text => if c = '\x00' then lcd else print (writeData lcd c) text

/-- The sixteen visible characters of display row `row` (0 or 1). -/
def line (lcd : CSE321_LCD) (row : Nat) : List Char :=
  (List.range _cols).map (fun col => lcd.ddram (row_offsets.getD row 0 + col))

end CSE321_LCD

/-! ## Global variables and peripherals of `main.cpp` -/

/-- Source `menu1`. -/
def menu1 : List Char := "Social Distance".data

/-- Source `menu2`. -/
def menu2 : List Char := "Set new distance".data

/-- Source `warning`. -/
def warning : List Char := "Please Back Up! ".data

/-- Source `wdTimeout`. -/
def wdTimeout : Nat := 30000

/-- Calls to peripherals and to the runtime, in the order the program makes
them. -/
inductive Effect where
  | lcd_begin
  | lcd_clear
  | lcd_setCursor (col row : Nat)
  | lcd_print (text : List Char)
  | Buzzer_resume
  | Buzzer_suspend
  | thread_sleep_for (ms : Nat)
  | printf (text : List Char)
  | encoder_getPulses
  | Ultrasonic
  | dog_start (timeout : Nat)
  | dog_kick
  | lock_lock
  | lock_unlock
  deriving DecidableEq

/-- The global variables of `main.cpp` together with the peripherals they
drive. -/
structure State where
  /-- Source `minDistance`, the alarm threshold in centimetres. -/
  minDistance : Int
  /-- Source `dist`, the last distance returned by `Ultrasonic`. -/
  dist : Int
  /-- Source `pulse`, the encoder count seen at the last adjustment. -/
  pulse : Int
  /-- Source `pbcounter`. -/
  pbcounter : Int
  /-- Source `printed`: false when the top line has to be redrawn. -/
  printed : Bool
  /-- Source `isChanging`: true in the "Set new distance" menu. -/
  isChanging : Bool
  /-- Source `lcd`. -/
  lcd : CSE321_LCD
  /-- Source `Buzzer`: true while the PWM output runs (`resume`), false while
  it is suspended. -/
  Buzzer : Bool
  /-- Peripheral calls made so far. -/
  trace : List Effect

/-- Append one peripheral call to the trace. -/
def emit (e : Effect) (s : State) : State :=
  { s with trace := s.trace ++ [e] }

/-- Text produced by `sprintf(buffer, "%d", n)` and by `printf("%d", n)`: the
decimal digits of `n`, preceded by a minus sign when `n` is negative.  The
capacity of the destination array is not part of this function. -/
def sprintf_d (n : Int) : List Char :=
  if n < 0 then '-' :: Nat.toDigits 10 n.natAbs else Nat.toDigits 10 n.natAbs

/-- Call `lcd.clear()`. -/
def lcd_clear (s : State) : State :=
  emit Effect.lcd_clear { s with lcd := s.lcd.clear }

/-- Call `lcd.setCursor(col, row)`. -/
def lcd_setCursor (col row : Nat) (s : State) : State :=
  emit (Effect.lcd_setCursor col row) { s with lcd := s.lcd.setCursor col row }

/-- Call `lcd.print(text)`. -/
def lcd_print (text : List Char) (s : State) : State :=
  emit (Effect.lcd_print text) { s with lcd := s.lcd.print text }

/-- Source `resetDog`: `dog.kick()`. -/
def resetDog (s : State) : State :=
  emit Effect.dog_kick s

/-- Source `BuzzerOn`: `Buzzer.resume()`. -/
def BuzzerOn (s : State) : State :=
  emit Effect.Buzzer_resume { s with Buzzer := true }

/-- Source `BuzzerOff`: `Buzzer.suspend()`. -/
def BuzzerOff (s : State) : State :=
  emit Effect.Buzzer_suspend { s with Buzzer := false }

/-- Source `printMenu`: when `printed` is false, clear the display, print
`text` and set `printed`; otherwise nothing. -/
def printMenu (text : List Char) (s : State) : State :=
  if s.printed = false then
    let s := lcd_clear s
    let s := lcd_print text s
    { s with printed := true }
  else s

/-- Source `ChangeDistance`, the deferred handler of the push button. -/
def ChangeDistance (s : State) : State :=
  let s := emit Effect.lock_lock s
  let s := { s with isChanging := !s.isChanging }
  let s := { s with printed := false }
  let s := emit (Effect.printf "switched menu\n".data) s
  let s := if s.pbcounter = 0 then { s with pbcounter := s.pbcounter + 1 }
           else { s with pbcounter := 0 }
  emit Effect.lock_unlock s

/-- Call `thread_sleep_for(ms)`. -/
def thread_sleep_for (ms : Nat) (s : State) : State :=
  emit (Effect.thread_sleep_for ms) s

/-- Call `printf("%d\n", n)`. -/
def printf_d (n : Int) (s : State) : State :=
  emit (Effect.printf (sprintf_d n ++ ['\n'])) s

/-- Source `main`, lines 246-273 of `main.cpp`: the `if / else if` chain of the
Adjust branch that clamps the threshold or moves it by one.  `pulses` is the
local variable read from the encoder. -/
def main_adjust_threshold (pulses : Int) (s : State) : State :=
  if s.minDistance < 31 then { s with minDistance := 31 }
  else if s.minDistance > 400 then { s with minDistance := 400 }
  else if s.pulse ≠ pulses then
    let s := if s.pulse < pulses then { s with minDistance := s.minDistance + 1 }
             else { s with minDistance := s.minDistance - 1 }
    let s := { s with pulse := pulses }
    printf_d s.minDistance s
  else s

/-- Source `main`, lines 275-292 of `main.cpp`: the Adjust branch prints the
threshold on the second display line and blanks the columns a shorter number
leaves. -/
def main_adjust_render (s : State) : State :=
  let s := lcd_setCursor 0 1 s
  let s := lcd_print (sprintf_d s.minDistance) s
  let s := if s.minDistance < 100 then lcd_print [' '] (lcd_setCursor 2 1 s) else s
  let s := if s.minDistance < 10 then lcd_print [' '] (lcd_setCursor 1 1 s) else s
  s

/-- Source `main`, the branch `if (isChanging)` of the loop body: one iteration
in the "Set new distance" menu.  `pulses` is the value `encoder.getPulses()`
returns in this iteration. -/
def main_adjust (pulses : Int) (s : State) : State :=
  let s := printMenu menu2 s
  let s := BuzzerOff s
  let s := thread_sleep_for 50 s
  let s := emit Effect.encoder_getPulses s
  let s := main_adjust_threshold pulses s
  main_adjust_render s

/-- Source `main`, lines 310-336 of `main.cpp`: the Monitor branch prints the
distance on the second display line and blanks the columns a shorter number
leaves. -/
def main_monitor_render (s : State) : State :=
  let s := lcd_setCursor 0 1 s
  let s := lcd_print (sprintf_d s.dist) s
  let s := if s.dist < 1000 then lcd_print [' '] (lcd_setCursor 3 1 s) else s
  let s := if s.dist < 100 then lcd_print [' '] (lcd_setCursor 2 1 s) else s
  let s := if s.dist < 10 then lcd_print [' '] (lcd_setCursor 1 1 s) else s
  s

/-- Source `main`, lines 338-366 of `main.cpp`: the alarm decision of the
Monitor branch. -/
def main_monitor_alarm (s : State) : State :=
  if s.dist < s.minDistance then
    let s := BuzzerOn s
    let s := lcd_setCursor 0 0 s
    let s := lcd_print warning s
    { s with printed := false }
  else
    let s := BuzzerOff s
    if s.isChanging then printMenu menu2 s else printMenu menu1 s

/-- Source `main`, the `else` branch of the loop body: one iteration in the
default menu.  `distance` is the value `Ultrasonic()` returns in this
iteration. -/
def main_monitor (distance : Int) (s : State) : State :=
  let s := thread_sleep_for 300 s
  let s := emit Effect.Ultrasonic { s with dist := distance }
  let s := printf_d s.dist s
  let s := main_monitor_render s
  let s := main_monitor_alarm s
  resetDog s

/-- Source `main`, the body of `while (true)`: the branch is chosen by
`isChanging`. -/
def main_loop (pulses distance : Int) (s : State) : State :=
  if s.isChanging then main_adjust pulses s else main_monitor distance s

/-- The state when the program enters `while (true)`: the initial values of
the globals and the effect of the statements of `main` before the loop
(`dog.start(wdTimeout)`, `Buzzer.suspend()`, `lcd.begin()`, `lcd.clear()`,
`lcd.print("Social Distance")`).  `dist` has no initialiser and is zero as a
global. -/
def main_start : State :=
  let s : State :=
    { minDistance := 183, dist := 0, pulse := 0, pbcounter := 0, printed := true,
      isChanging := false, lcd := { ddram := fun _ => ' ', cursor := 0 },
      Buzzer := false, trace := [] }
  let s := emit (Effect.printf "------Start------\n".data) s
  let s := emit (Effect.dog_start wdTimeout) s
  let s := emit Effect.Buzzer_suspend { s with Buzzer := false }
  let s := emit Effect.lcd_begin { s with lcd := s.lcd.clear.home }
  let s := lcd_clear s
  lcd_print "Social Distance".data s

/-- What can happen between two observations of the system: the deferred
button handler runs once, or the loop body runs once with the values its
peripherals return. -/
inductive Event where
  | button
  | iteration (pulses distance : Int)

/-- A value of the C type `int` (32 bits). -/
def isInt (n : Int) : Prop := -2147483648 ≤ n ∧ n ≤ 2147483647

instance (n : Int) : Decidable (isInt n) := by unfold isInt; infer_instance

/-- The values an event carries are C `int`s. -/
def Event.wf : Event → Prop
  | Event.button => True
  | Event.iteration pulses distance => isInt pulses ∧ isInt distance

/-- One event, taken as an atomic step. -/
def step (s : State) : Event → State
  | Event.button => ChangeDistance s
  | Event.iteration pulses distance => main_loop pulses distance s

/-- A finite sequence of events from state `s`. -/
def run (s : State) (events : List Event) : State :=
  events.foldl step s

/-- States the program can be in between atomic steps: reached from the
entry of the loop by a finite sequence of well-formed events. -/
def Reachable (s : State) : Prop :=
  ∃ events : List Event, (∀ ev ∈ events, ev.wf) ∧ s = run main_start events

/-- Number of button events in a sequence. -/
def presses : List Event → Nat
  | [] => 0
  | Event.button :: events => presses events + 1
  | Event.iteration _ _ :: events => presses events

/-- The trace of `s'` extends the trace of `s` by calls none of which is
`dog.kick()`. -/
def Quiet (s s' : State) : Prop :=
  ∃ es : List Effect, s'.trace = s.trace ++ es ∧ Effect.dog_kick ∉ es

/-- Adjust iterations in which the encoder count falls by one each time,
starting below `start`: the readings `start - 1`, `start - 2`, ... -/
def leftTurns (start : Int) : Nat → List Event
  | 0 => []
  | n + 1 => Event.iteration (start - 1) 0 :: leftTurns (start - 1) n

/-- What the first display line shows once it has been redrawn for the current
menu: `menu2` in the "Set new distance" menu, `menu1` followed by a blank
sixteenth column in the default menu. -/
def banner (changing : Bool) : List Char :=
  if changing then menu2 else menu1 ++ [' ']

/-- Invariant of the loop between atomic steps: the threshold is between 30
and 401, and when `printed` is true the first display line shows the banner of
the current menu. -/
def Inv (s : State) : Prop :=
  30 ≤ s.minDistance ∧ s.minDistance ≤ 401 ∧
  (s.printed = true → s.lcd.line 0 = banner s.isChanging)

/-! ## Ranging arithmetic of `Ultrasonic` -/

/-- Number of low-order bits that have to be dropped from `n` to leave at most
24 significant bits.  `fuel` bounds the number of halvings. -/
def excessBits : Nat → Nat → Nat
  | 0, _ => 0
  | fuel + 1, n => if n < 2 ^ 24 then 0 else excessBits fuel (n / 2) + 1

/-- Nearest multiple of `2 ^ sh` to `n`, the even one of two equally near. -/
def roundToMultiple (n sh : Nat) : Nat :=
  let q := n / 2 ^ sh
  let r := n % 2 ^ sh
  if sh = 0 then n
  else if 2 ^ (sh - 1) < r ∨ (r = 2 ^ (sh - 1) ∧ q % 2 = 1) then (q + 1) * 2 ^ sh
  else q * 2 ^ sh

/-- Rounding of a non-negative integer (or of a multiple of a fixed power of
two) to a binary32 value: 24 significant bits, round to nearest, ties to even.
Sixty-four halvings cover every argument below `2 ^ 88`. -/
def roundBinary32 (n : Nat) : Nat :=
  roundToMultiple n (excessBits 64 n)

/-- Source `Ultrasonic`, the arithmetic after the echo pulse has been timed:
`distance = get_time.read_us(); distance = distance * 0.03432f / 2.0f; return distance;`
with `elapsed` the value of `read_us()`.  The `int` is converted to binary32,
multiplied by the binary32 constant nearest to 0.03432, which is
`9212705 / 2 ^ 28`, the product rounded to binary32, halved (exact) and
converted back to `int` by truncation toward zero. -/
def Ultrasonic (elapsed : Int) : Int :=
  let magnitude : Nat := roundBinary32 (roundBinary32 elapsed.natAbs * 9212705) / 2 ^ 29
  if elapsed < 0 then -(magnitude : Int) else (magnitude : Int)

/-! ## Formatting buffers and the mutex -/

/-- Declared size of the arrays `buffer` and `Ebuffer` of `main`
(`char buffer[3]; char Ebuffer[3];`). -/
def buffer_size : Nat := 3

/-- Number of bytes `sprintf(buffer, "%d", n)` stores: the characters of the
decimal text and the terminating NUL. -/
def sprintf_d_bytes (n : Int) : Nat :=
  (sprintf_d n).length + 1

/-- Calls on the mutex `lock`. -/
def isLockCall : Effect → Bool
  | Effect.lock_lock => true
  | Effect.lock_unlock => true
  | _ => false

/-- The trace of `s'` extends the trace of `s` by calls none of which is a
call on the mutex. -/
def Unguarded (s s' : State) : Prop :=
  ∃ es : List Effect, s'.trace = s.trace ++ es ∧ ∀ e ∈ es, isLockCall e = false

/-- Source `printMenu` on the main thread with one run of the deferred handler
`ChangeDistance` on the event-queue thread scheduled between `lcd.print(text)`
and `printed = true`.  `printMenu` does not hold `lock`, so `lock.lock()` in
the handler returns at once. -/
def printMenu_preempted (text : List Char) (s : State) : State :=
  if s.printed = false then
    let s := lcd_clear s
    let s := lcd_print text s
    let s := ChangeDistance s
    { s with printed := true }
  else s

/-- The Adjust branch of the loop body when the handler runs inside its call
of `printMenu` as in `printMenu_preempted`. -/
def main_adjust_preempted (pulses : Int) (s : State) : State :=
  let s := printMenu_preempted menu2 s
  let s := BuzzerOff s
  let s := thread_sleep_for 50 s
  let s := emit Effect.encoder_getPulses s
  let s := main_adjust_threshold pulses s
  main_adjust_render s

/-! ## What one step does to the control variables -/

/-- Apart from the display and the trace, `printMenu` changes `printed` only. -/
theorem printMenu_frame (text : List Char) (s : State) :
    printMenu text s =
      { s with lcd := (printMenu text s).lcd, trace := (printMenu text s).trace,
               printed := true } := by
  unfold printMenu
  split
  · rfl
  · rename_i h
    have hp : s.printed = true := by simpa using h
    cases s
    simp_all

/-- The render block of the Adjust branch changes the display and the trace
only. -/
theorem main_adjust_render_frame (s : State) :
    main_adjust_render s =
      { s with lcd := (main_adjust_render s).lcd, trace := (main_adjust_render s).trace } := by
  simp only [main_adjust_render, lcd_print, lcd_setCursor, emit]
  repeat' split
  all_goals rfl

/-- The render block of the Monitor branch changes the display and the trace
only. -/
theorem main_monitor_render_frame (s : State) :
    main_monitor_render s =
      { s with lcd := (main_monitor_render s).lcd, trace := (main_monitor_render s).trace } := by
  simp only [main_monitor_render, lcd_print, lcd_setCursor, emit]
  repeat' split
  all_goals rfl

/-- The threshold block changes `minDistance`, `pulse` and the trace only. -/
theorem main_adjust_threshold_frame (pulses : Int) (s : State) :
    main_adjust_threshold pulses s =
      { s with minDistance := (main_adjust_threshold pulses s).minDistance,
               pulse := (main_adjust_threshold pulses s).pulse,
               trace := (main_adjust_threshold pulses s).trace } := by
  simp only [main_adjust_threshold, printf_d, emit]
  repeat' split
  all_goals rfl

/-- The alarm block leaves the threshold, the baseline, the mode, the toggle
counter and the sample alone. -/
theorem main_monitor_alarm_frame (s : State) :
    main_monitor_alarm s =
      { s with lcd := (main_monitor_alarm s).lcd, trace := (main_monitor_alarm s).trace,
               printed := (main_monitor_alarm s).printed,
               Buzzer := (main_monitor_alarm s).Buzzer } := by
  unfold main_monitor_alarm
  split
  · rfl
  · dsimp only
    split <;> (rw [printMenu_frame]; rfl)

/-- The threshold after the chain, as a function of the values before it. -/
theorem main_adjust_threshold_minDistance (pulses : Int) (s : State) :
    (main_adjust_threshold pulses s).minDistance =
      if s.minDistance < 31 then 31
      else if s.minDistance > 400 then 400
      else if s.pulse ≠ pulses then
        (if s.pulse < pulses then s.minDistance + 1 else s.minDistance - 1)
      else s.minDistance := by
  simp only [main_adjust_threshold, printf_d, emit]
  repeat' split
  all_goals rfl

/-- The encoder baseline after the chain. -/
theorem main_adjust_threshold_pulse (pulses : Int) (s : State) :
    (main_adjust_threshold pulses s).pulse =
      if s.minDistance < 31 then s.pulse
      else if s.minDistance > 400 then s.pulse
      else if s.pulse ≠ pulses then pulses
      else s.pulse := by
  simp only [main_adjust_threshold, printf_d, emit]
  repeat' split
  all_goals rfl

theorem main_adjust_isChanging (pulses : Int) (s : State) :
    (main_adjust pulses s).isChanging = s.isChanging := by
  simp only [main_adjust]
  rw [main_adjust_render_frame, main_adjust_threshold_frame, printMenu_frame]
  rfl

theorem main_adjust_pbcounter (pulses : Int) (s : State) :
    (main_adjust pulses s).pbcounter = s.pbcounter := by
  simp only [main_adjust]
  rw [main_adjust_render_frame, main_adjust_threshold_frame, printMenu_frame]
  rfl

theorem main_monitor_isChanging (distance : Int) (s : State) :
    (main_monitor distance s).isChanging = s.isChanging := by
  simp only [main_monitor]
  rw [main_monitor_alarm_frame, main_monitor_render_frame]
  rfl

theorem main_monitor_pbcounter (distance : Int) (s : State) :
    (main_monitor distance s).pbcounter = s.pbcounter := by
  simp only [main_monitor]
  rw [main_monitor_alarm_frame, main_monitor_render_frame]
  rfl

theorem main_monitor_minDistance (distance : Int) (s : State) :
    (main_monitor distance s).minDistance = s.minDistance := by
  simp only [main_monitor]
  rw [main_monitor_alarm_frame, main_monitor_render_frame]
  rfl

theorem main_monitor_pulse (distance : Int) (s : State) :
    (main_monitor distance s).pulse = s.pulse := by
  simp only [main_monitor]
  rw [main_monitor_alarm_frame, main_monitor_render_frame]
  rfl

/-- The threshold after one Adjust iteration, as the `else if` chain of the
source computes it. -/
theorem main_adjust_minDistance (pulses : Int) (s : State) :
    (main_adjust pulses s).minDistance =
      if s.minDistance < 31 then 31
      else if s.minDistance > 400 then 400
      else if s.pulse ≠ pulses then
        (if s.pulse < pulses then s.minDistance + 1 else s.minDistance - 1)
      else s.minDistance := by
  simp only [main_adjust]
  rw [main_adjust_render_frame]
  simp only [main_adjust_threshold_minDistance]
  rw [printMenu_frame]
  rfl

/-- The encoder baseline after one Adjust iteration. -/
theorem main_adjust_pulse (pulses : Int) (s : State) :
    (main_adjust pulses s).pulse =
      if s.minDistance < 31 then s.pulse
      else if s.minDistance > 400 then s.pulse
      else if s.pulse ≠ pulses then pulses
      else s.pulse := by
  simp only [main_adjust]
  rw [main_adjust_render_frame]
  simp only [main_adjust_threshold_pulse]
  rw [printMenu_frame]
  rfl

theorem ChangeDistance_minDistance (s : State) :
    (ChangeDistance s).minDistance = s.minDistance := by
  simp only [ChangeDistance, emit]
  split <;> rfl

theorem step_isChanging (s : State) (ev : Event) :
    (step s ev).isChanging =
      match ev with
      | Event.button => !s.isChanging
      | Event.iteration _ _ => s.isChanging := by
  cases ev with
  | button =>
    simp only [step, ChangeDistance, emit]
    split <;> rfl
  | iteration p d =>
    simp only [step, main_loop]
    split
    · exact main_adjust_isChanging p s
    · exact main_monitor_isChanging d s

theorem step_pbcounter (s : State) (ev : Event) :
    (step s ev).pbcounter =
      match ev with
      | Event.button => if s.pbcounter = 0 then s.pbcounter + 1 else 0
      | Event.iteration _ _ => s.pbcounter := by
  cases ev with
  | button =>
    simp only [step, ChangeDistance, emit]
    split <;> simp_all
  | iteration p d =>
    simp only [step, main_loop]
    split
    · exact main_adjust_pbcounter p s
    · exact main_monitor_pbcounter d s

theorem run_cons (s : State) (ev : Event) (events : List Event) :
    run s (ev :: events) = run (step s ev) events := rfl

/-- Parity of the toggle counter and of the mode along any sequence of events,
from any state whose counter is 0 or 1. -/
theorem run_parity (events : List Event) :
    ∀ s : State, (s.pbcounter = 0 ∨ s.pbcounter = 1) →
      (run s events).pbcounter = ((s.pbcounter.toNat + presses events) % 2 : Nat) ∧
      (run s events).isChanging = (s.isChanging != decide (presses events % 2 = 1)) := by
  induction events with
  | nil =>
    intro s h
    rcases h with h | h <;> simp [run, presses, h]
  | cons ev events ih =>
    intro s h
    rw [run_cons]
    cases ev with
    | button =>
      have hp := step_pbcounter s Event.button
      have hc := step_isChanging s Event.button
      simp only at hp hc
      have h1 : (step s Event.button).pbcounter = 0 ∨ (step s Event.button).pbcounter = 1 := by
        rcases h with h | h <;> simp [hp, h]
      obtain ⟨ih1, ih2⟩ := ih _ h1
      rw [ih1, ih2, hc]
      constructor
      · rcases h with h | h
        · simp only [hp, h, presses]; norm_num; omega
        · simp only [hp, h, presses]; norm_num; omega
      · simp only [presses]
        rcases Nat.mod_two_eq_zero_or_one (presses events) with h2 | h2
        · have : (presses events + 1) % 2 = 1 := by omega
          simp [h2, this]
        · have : (presses events + 1) % 2 = 0 := by omega
          simp [h2, this]
    | iteration p d =>
      have hp := step_pbcounter s (Event.iteration p d)
      have hc := step_isChanging s (Event.iteration p d)
      simp only at hp hc
      have h1 : (step s (Event.iteration p d)).pbcounter = 0 ∨
          (step s (Event.iteration p d)).pbcounter = 1 := by rw [hp]; exact h
      obtain ⟨ih1, ih2⟩ := ih _ h1
      rw [ih1, ih2, hc, hp]
      simp [presses]

/-! ## Mode toggle -/

/-- C7. One run of `ChangeDistance` from a state whose `pbcounter` is 0 or 1
negates `isChanging`, leaves `printed` false whatever it was, turns `pbcounter`
0 into 1 and 1 into 0 (the new value does not depend on `isChanging`), and
leaves `minDistance`, `pulse` and `dist` as they were. -/
theorem ChangeDistance_single_step (s : State) (h : s.pbcounter = 0 ∨ s.pbcounter = 1) :
    (ChangeDistance s).isChanging = (!s.isChanging) ∧
    (ChangeDistance s).printed = false ∧
    (ChangeDistance s).pbcounter = 1 - s.pbcounter ∧
    (ChangeDistance s).minDistance = s.minDistance ∧
    (ChangeDistance s).pulse = s.pulse ∧
    (ChangeDistance s).dist = s.dist := by
  simp only [ChangeDistance, emit]
  rcases h with h | h <;> simp [h]

/-- C7, at the state in which the loop is entered (`pbcounter` 0, default
menu). -/
theorem ChangeDistance_single_step_witness :
    (main_start.pbcounter = 0 ∨ main_start.pbcounter = 1) ∧
    (ChangeDistance main_start).isChanging = (!main_start.isChanging) ∧
    (ChangeDistance main_start).printed = false ∧
    (ChangeDistance main_start).pbcounter = 1 - main_start.pbcounter ∧
    (ChangeDistance main_start).minDistance = main_start.minDistance ∧
    (ChangeDistance main_start).pulse = main_start.pulse ∧
    (ChangeDistance main_start).dist = main_start.dist :=
  ⟨Or.inl rfl, ChangeDistance_single_step main_start (Or.inl rfl)⟩

/-- C3. After any finite sequence of events from the entry of the loop that
contains N runs of `ChangeDistance` (with any loop iterations in between),
`pbcounter` is N mod 2 and `isChanging` is false exactly when N is even. -/
theorem toggle_parity (events : List Event) :
    (run main_start events).pbcounter = ((presses events % 2 : Nat) : Int) ∧
    ((run main_start events).isChanging = false ↔ presses events % 2 = 0) := by
  obtain ⟨h1, h2⟩ := run_parity events main_start (Or.inl rfl)
  refine ⟨?_, ?_⟩
  · rw [h1]
    have : main_start.pbcounter = 0 := rfl
    simp [this]
  · rw [h2]
    have : main_start.isChanging = false := rfl
    rw [this]
    rcases Nat.mod_two_eq_zero_or_one (presses events) with h | h <;> simp [h]

/-! ## Threshold adjustment -/

/-- C2. One Adjust iteration from a state with `31 < minDistance < 400`: a
reading above the baseline raises `minDistance` by exactly 1, a reading below
it lowers `minDistance` by exactly 1, whatever the size of the difference, and
in both cases the baseline becomes the reading; an equal reading leaves
`minDistance` unchanged. -/
theorem main_adjust_direction (s : State) (pulses : Int)
    (hlo : 31 < s.minDistance) (hhi : s.minDistance < 400) :
    (s.pulse < pulses →
      (main_adjust pulses s).minDistance = s.minDistance + 1 ∧
      (main_adjust pulses s).pulse = pulses) ∧
    (pulses < s.pulse →
      (main_adjust pulses s).minDistance = s.minDistance - 1 ∧
      (main_adjust pulses s).pulse = pulses) ∧
    (pulses = s.pulse →
      (main_adjust pulses s).minDistance = s.minDistance) := by
  rw [main_adjust_minDistance, main_adjust_pulse]
  have h1 : ¬ s.minDistance < 31 := by omega
  have h2 : ¬ s.minDistance > 400 := by omega
  simp only [h1, h2, if_false]
  refine ⟨?_, ?_, ?_⟩
  · intro h
    have hne : s.pulse ≠ pulses := by omega
    simp [hne, h]
  · intro h
    have hne : s.pulse ≠ pulses := by omega
    have hnlt : ¬ s.pulse < pulses := by omega
    simp [hne, hnlt]
  · intro h
    simp [h]

/-- C2, at the entry state of the loop (threshold 183, baseline 0) with the
readings 5, -7 and 0. -/
theorem main_adjust_direction_witness :
    (31 < main_start.minDistance ∧ main_start.minDistance < 400) ∧
    (main_adjust 5 main_start).minDistance = 184 ∧
    (main_adjust 5 main_start).pulse = 5 ∧
    (main_adjust (-7) main_start).minDistance = 182 ∧
    (main_adjust (-7) main_start).pulse = -7 ∧
    (main_adjust 0 main_start).minDistance = 183 :=
  have hlo : 31 < main_start.minDistance := by decide
  have hhi : main_start.minDistance < 400 := by decide
  ⟨⟨hlo, hhi⟩,
   ((main_adjust_direction main_start 5 hlo hhi).1 (by decide)).1,
   ((main_adjust_direction main_start 5 hlo hhi).1 (by decide)).2,
   ((main_adjust_direction main_start (-7) hlo hhi).2.1 (by decide)).1,
   ((main_adjust_direction main_start (-7) hlo hhi).2.1 (by decide)).2,
   (main_adjust_direction main_start 0 hlo hhi).2.2 (by decide)⟩

/-- C8. One Adjust iteration from any state with any reading.  A threshold
below 31 ends at 31 and one above 400 ends at 400; in both cases the `else if`
chain does nothing but that assignment (no step, no console output) and the
baseline is left as it was even when the reading differs from it.  A threshold
within `[31, 400]` at the start, where neither clamp fires, is moved by one in
the direction of the reading, and a baseline that changes belongs to an
iteration whose reading differs from it. -/
theorem main_adjust_clamp_precedence (s : State) (pulses : Int) :
    (s.minDistance < 31 →
      (main_adjust pulses s).minDistance = 31 ∧ (main_adjust pulses s).pulse = s.pulse ∧
      main_adjust_threshold pulses s = { s with minDistance := 31 }) ∧
    (s.minDistance > 400 →
      (main_adjust pulses s).minDistance = 400 ∧ (main_adjust pulses s).pulse = s.pulse ∧
      main_adjust_threshold pulses s = { s with minDistance := 400 }) ∧
    (31 ≤ s.minDistance → s.minDistance ≤ 400 →
      (main_adjust pulses s).minDistance =
        (if s.pulse < pulses then s.minDistance + 1
         else if pulses < s.pulse then s.minDistance - 1 else s.minDistance) ∧
      (main_adjust pulses s).pulse = pulses) ∧
    ((main_adjust pulses s).pulse ≠ s.pulse → pulses ≠ s.pulse) := by
  rw [main_adjust_minDistance, main_adjust_pulse]
  refine ⟨?_, ?_, ?_, ?_⟩
  · intro h
    simp [h, main_adjust_threshold]
  · intro h
    have h1 : ¬ s.minDistance < 31 := by omega
    simp [h, h1, main_adjust_threshold]
  · intro hlo hhi
    have h1 : ¬ s.minDistance < 31 := by omega
    have h2 : ¬ s.minDistance > 400 := by omega
    simp only [h1, h2, if_false]
    by_cases hlt : s.pulse < pulses
    · have hne : s.pulse ≠ pulses := by omega
      simp [hne, hlt]
    · by_cases hgt : pulses < s.pulse
      · have hne : s.pulse ≠ pulses := by omega
        simp [hne, hlt, hgt]
      · have he : s.pulse = pulses := by omega
        simp [he]
  · intro h hp
    apply h
    split_ifs <;> simp_all

/-- C8, at three states: threshold 20 with a rising count, threshold 500 with
a falling count, and the entry state (threshold 183, baseline 0) with the
reading 4. -/
theorem main_adjust_clamp_precedence_witness :
    ((main_adjust 9 { main_start with minDistance := 20 }).minDistance = 31 ∧
      (main_adjust 9 { main_start with minDistance := 20 }).pulse = 0) ∧
    ((main_adjust (-9) { main_start with minDistance := 500 }).minDistance = 400 ∧
      (main_adjust (-9) { main_start with minDistance := 500 }).pulse = 0) ∧
    ((main_adjust 4 main_start).minDistance = 184 ∧ (main_adjust 4 main_start).pulse = 4) :=
  have a := (main_adjust_clamp_precedence { main_start with minDistance := 20 } 9).1
    (by decide)
  have b := (main_adjust_clamp_precedence { main_start with minDistance := 500 } (-9)).2.1
    (by decide)
  ⟨⟨a.1, a.2.1⟩, ⟨b.1, b.2.1⟩,
   (main_adjust_clamp_precedence main_start 4).2.2.1 (by decide) (by decide)⟩

/-! ## Watchdog -/

theorem Quiet.refl (s : State) : Quiet s s :=
  ⟨[], by simp, by simp⟩

theorem Quiet.trans {a b c : State} (h1 : Quiet a b) (h2 : Quiet b c) : Quiet a c := by
  obtain ⟨es1, e1, n1⟩ := h1
  obtain ⟨es2, e2, n2⟩ := h2
  refine ⟨es1 ++ es2, ?_, ?_⟩
  · rw [e2, e1, List.append_assoc]
  · simp [n1, n2]

theorem Quiet.of_trace_eq {a b c : State} (h : Quiet a b) (e : c.trace = b.trace) :
    Quiet a c := by
  obtain ⟨es, e1, n1⟩ := h
  exact ⟨es, by rw [e, e1], n1⟩

theorem quiet_emit (e : Effect) (h : e ≠ Effect.dog_kick) (s : State) : Quiet s (emit e s) :=
  ⟨[e], rfl, by simpa using Ne.symm h⟩

theorem quiet_lcd_setCursor (col row : Nat) (s : State) : Quiet s (lcd_setCursor col row s) :=
  ⟨[Effect.lcd_setCursor col row], rfl, by simp⟩

theorem quiet_lcd_print (text : List Char) (s : State) : Quiet s (lcd_print text s) :=
  ⟨[Effect.lcd_print text], rfl, by simp⟩

theorem quiet_lcd_clear (s : State) : Quiet s (lcd_clear s) :=
  ⟨[Effect.lcd_clear], rfl, by simp⟩

theorem quiet_blank (col : Nat) (p : Prop) [Decidable p] (s : State) :
    Quiet s (if p then lcd_print [' '] (lcd_setCursor col 1 s) else s) := by
  split
  · exact (quiet_lcd_setCursor col 1 s).trans (quiet_lcd_print _ _)
  · exact Quiet.refl s

theorem quiet_printMenu (text : List Char) (s : State) : Quiet s (printMenu text s) := by
  unfold printMenu
  split
  · exact ((quiet_lcd_clear s).trans (quiet_lcd_print text _)).of_trace_eq rfl
  · exact Quiet.refl s

theorem quiet_main_adjust_render (s : State) : Quiet s (main_adjust_render s) := by
  simp only [main_adjust_render]
  exact (quiet_lcd_setCursor 0 1 s).trans ((quiet_lcd_print _ _).trans
    ((quiet_blank 2 _ _).trans (quiet_blank 1 _ _)))

theorem quiet_main_monitor_render (s : State) : Quiet s (main_monitor_render s) := by
  simp only [main_monitor_render]
  exact (quiet_lcd_setCursor 0 1 s).trans ((quiet_lcd_print _ _).trans
    ((quiet_blank 3 _ _).trans ((quiet_blank 2 _ _).trans (quiet_blank 1 _ _))))

theorem quiet_main_adjust_threshold (pulses : Int) (s : State) :
    Quiet s (main_adjust_threshold pulses s) := by
  simp only [main_adjust_threshold, printf_d]
  repeat' split
  all_goals first
    | exact (Quiet.refl s).of_trace_eq rfl
    | exact (quiet_emit _ (by simp) s).of_trace_eq rfl

theorem quiet_main_monitor_alarm (s : State) : Quiet s (main_monitor_alarm s) := by
  unfold main_monitor_alarm
  split
  · exact ((quiet_emit Effect.Buzzer_resume (by simp) s).trans
      ((quiet_lcd_setCursor 0 0 _).trans (quiet_lcd_print warning _))).of_trace_eq rfl
  · dsimp only
    have h : Quiet s (BuzzerOff s) := (quiet_emit Effect.Buzzer_suspend (by simp) s).of_trace_eq rfl
    split
    · exact h.trans (quiet_printMenu _ _)
    · exact h.trans (quiet_printMenu _ _)

theorem quiet_main_adjust (pulses : Int) (s : State) : Quiet s (main_adjust pulses s) := by
  simp only [main_adjust]
  have h1 := quiet_printMenu menu2 s
  have h2 : Quiet (printMenu menu2 s) (BuzzerOff (printMenu menu2 s)) :=
    (quiet_emit Effect.Buzzer_suspend (by simp) _).of_trace_eq rfl
  have h3 := quiet_emit (Effect.thread_sleep_for 50) (by simp) (BuzzerOff (printMenu menu2 s))
  have h4 := quiet_emit Effect.encoder_getPulses (by simp)
    (thread_sleep_for 50 (BuzzerOff (printMenu menu2 s)))
  exact h1.trans (h2.trans (h3.trans (h4.trans
    ((quiet_main_adjust_threshold pulses _).trans (quiet_main_adjust_render _)))))

theorem quiet_ChangeDistance (s : State) : Quiet s (ChangeDistance s) := by
  simp only [ChangeDistance, emit]
  split
  · exact ⟨[Effect.lock_lock, Effect.printf "switched menu\n".data, Effect.lock_unlock],
      by simp, by simp⟩
  · exact ⟨[Effect.lock_lock, Effect.printf "switched menu\n".data, Effect.lock_unlock],
      by simp, by simp⟩

/-- C5. Over the trace of peripheral calls: a Monitor iteration adds calls
that end with `dog.kick()` and contain no other `dog.kick()`, whatever distance
`Ultrasonic` returned and from whatever state; an Adjust iteration and a run of
`ChangeDistance` add no `dog.kick()`; and the statements of `main` before the
loop make none. -/
theorem watchdog_kick_policy :
    (∀ (distance : Int) (s : State), ∃ es : List Effect,
      (main_monitor distance s).trace = s.trace ++ es ++ [Effect.dog_kick] ∧
      Effect.dog_kick ∉ es) ∧
    (∀ (pulses : Int) (s : State), ∃ es : List Effect,
      (main_adjust pulses s).trace = s.trace ++ es ∧ Effect.dog_kick ∉ es) ∧
    (∀ s : State, ∃ es : List Effect,
      (ChangeDistance s).trace = s.trace ++ es ∧ Effect.dog_kick ∉ es) ∧
    Effect.dog_kick ∉ main_start.trace := by
  refine ⟨?_, quiet_main_adjust, quiet_ChangeDistance, ?_⟩
  · intro distance s
    have h1 := quiet_emit (Effect.thread_sleep_for 300) (by simp) s
    have h2 : Quiet (thread_sleep_for 300 s)
        (emit Effect.Ultrasonic { thread_sleep_for 300 s with dist := distance }) :=
      ⟨[Effect.Ultrasonic], rfl, by simp⟩
    have h3 := quiet_emit (Effect.printf (sprintf_d distance ++ ['\n'])) (by simp)
      (emit Effect.Ultrasonic { thread_sleep_for 300 s with dist := distance })
    obtain ⟨es, he, hn⟩ := h1.trans (h2.trans (h3.trans
      ((quiet_main_monitor_render _).trans (quiet_main_monitor_alarm _))))
    refine ⟨es, ?_, hn⟩
    simp only [main_monitor, resetDog, emit]
    rw [← he]
    rfl
  · simp [main_start, lcd_print, lcd_clear, emit]

/-! ## Display contents -/

namespace CSE321_LCD

theorem clear_eq (lcd : CSE321_LCD) : lcd.clear = { ddram := fun _ => ' ', cursor := 0 } := rfl

theorem setCursor_0_0 (lcd : CSE321_LCD) : lcd.setCursor 0 0 = { lcd with cursor := 0x00 } := rfl

theorem setCursor_0_1 (lcd : CSE321_LCD) : lcd.setCursor 0 1 = { lcd with cursor := 0x40 } := rfl

theorem setCursor_1_1 (lcd : CSE321_LCD) : lcd.setCursor 1 1 = { lcd with cursor := 0x41 } := rfl

theorem setCursor_2_1 (lcd : CSE321_LCD) : lcd.setCursor 2 1 = { lcd with cursor := 0x42 } := rfl

theorem setCursor_3_1 (lcd : CSE321_LCD) : lcd.setCursor 3 1 = { lcd with cursor := 0x43 } := rfl

/-- Printing a text that fits between the cursor and the end of the second row
leaves every address before the second row as it was. -/
theorem print_second_row (text : List Char) :
    ∀ lcd : CSE321_LCD, 0x40 ≤ lcd.cursor → lcd.cursor + text.length ≤ 0x67 →
      ∀ a < 0x40, (lcd.print text).ddram a = lcd.ddram a := by
  induction text with
  | nil => intro lcd _ _ a _; rfl
  | cons c text ih =>
    intro lcd h1 h2 a ha
    simp only [List.length_cons] at h2
    simp only [print]
    split
    · rfl
    · have hn : nextAddress lcd.cursor = lcd.cursor + 1 := by
        unfold nextAddress
        have e1 : ¬ lcd.cursor = 0x27 := by omega
        have e2 : ¬ lcd.cursor = 0x67 := by omega
        rw [if_neg e1, if_neg e2]
        omega
      rw [ih (writeData lcd c) (by simp only [writeData, hn]; omega)
        (by simp only [writeData, hn]; omega) a ha]
      simp only [writeData]
      have : ¬ a = lcd.cursor := by omega
      rw [if_neg this]

/-- Printing a text without NUL that fits between the cursor and the end of
the first row stores its characters at consecutive addresses from the cursor
and leaves every other address as it was. -/
theorem print_first_row (text : List Char) :
    ∀ lcd : CSE321_LCD, (∀ c ∈ text, c ≠ '\x00') → lcd.cursor + text.length ≤ 0x27 →
      ∀ a, (lcd.print text).ddram a =
        if lcd.cursor ≤ a ∧ a < lcd.cursor + text.length then text.getD (a - lcd.cursor) ' '
        else lcd.ddram a := by
  induction text with
  | nil =>
    intro lcd _ _ a
    have hr : ¬ (lcd.cursor ≤ a ∧ a < lcd.cursor + ([] : List Char).length) := by
      simp only [List.length_nil]; omega
    rw [if_neg hr]
    rfl
  | cons c text ih =>
    intro lcd h0 h2 a
    simp only [List.length_cons] at h2
    have hc : c ≠ '\x00' := h0 c (List.mem_cons_self _ _)
    have hn : nextAddress lcd.cursor = lcd.cursor + 1 := by
      unfold nextAddress
      have e1 : ¬ lcd.cursor = 0x27 := by omega
      have e2 : ¬ lcd.cursor = 0x67 := by omega
      rw [if_neg e1, if_neg e2]
      omega
    simp only [print, if_neg hc]
    rw [ih (writeData lcd c) (fun d hd => h0 d (List.mem_cons_of_mem _ hd))
      (by simp only [writeData, hn]; omega) a]
    simp only [writeData, hn, List.length_cons]
    by_cases ha : a = lcd.cursor
    · subst ha
      simp
    · by_cases hr : lcd.cursor + 1 ≤ a ∧ a < lcd.cursor + 1 + text.length
      · have hr2 : lcd.cursor ≤ a ∧ a < lcd.cursor + (text.length + 1) := by omega
        have hs : a - lcd.cursor = (a - (lcd.cursor + 1)) + 1 := by omega
        rw [if_pos hr, if_pos hr2, hs, List.getD_cons_succ]
      · have hr2 : ¬ (lcd.cursor ≤ a ∧ a < lcd.cursor + (text.length + 1)) := by omega
        rw [if_neg hr, if_neg hr2, if_neg ha]

/-- The first display line depends on the addresses before the second row
only. -/
theorem line_0_congr (lcd lcd' : CSE321_LCD) (h : ∀ a < 0x40, lcd'.ddram a = lcd.ddram a) :
    lcd'.line 0 = lcd.line 0 := by
  unfold line
  apply List.map_congr_left
  intro col hcol
  have : col < 16 := by simpa [_cols] using hcol
  apply h
  simp only [row_offsets, List.getD_cons_zero]
  omega

end CSE321_LCD

/-- The decimal text of a C `int` has at most eleven characters. -/
theorem sprintf_d_length (n : Int) (h : isInt n) : (sprintf_d n).length ≤ 11 := by
  have hn : n.natAbs < 10 ^ 10 := by
    unfold isInt at h
    omega
  have hl : (Nat.toDigits 10 n.natAbs).length ≤ 10 :=
    Nat.toDigitsCore_length 10 (by decide) _ _ 10 hn (by decide)
  unfold sprintf_d
  split
  · simp only [List.length_cons]; omega
  · omega

/-- Blanking one column of the second row leaves the addresses before the
second row as they were. -/
theorem blank_first_row (col : Nat) (hcol : col = 1 ∨ col = 2 ∨ col = 3) (p : Prop)
    [Decidable p] (s : State) :
    ∀ a < 0x40, (if p then lcd_print [' '] (lcd_setCursor col 1 s) else s).lcd.ddram a =
      s.lcd.ddram a := by
  intro a ha
  split
  · simp only [lcd_print, lcd_setCursor, emit]
    rcases hcol with h | h | h <;> subst h
    · rw [CSE321_LCD.setCursor_1_1]
      exact CSE321_LCD.print_second_row _ _ (by simp) (by simp) a ha
    · rw [CSE321_LCD.setCursor_2_1]
      exact CSE321_LCD.print_second_row _ _ (by simp) (by simp) a ha
    · rw [CSE321_LCD.setCursor_3_1]
      exact CSE321_LCD.print_second_row _ _ (by simp) (by simp) a ha
  · rfl

/-- Printing a C `int` at the start of the second row leaves the addresses
before the second row as they were. -/
theorem number_first_row (n : Int) (hn : isInt n) (s : State) :
    ∀ a < 0x40, (lcd_print (sprintf_d n) (lcd_setCursor 0 1 s)).lcd.ddram a =
      s.lcd.ddram a := by
  intro a ha
  simp only [lcd_print, lcd_setCursor, emit]
  rw [CSE321_LCD.setCursor_0_1]
  have hl := sprintf_d_length n hn
  exact CSE321_LCD.print_second_row _ _ (by simp) (by simp; omega) a ha

/-- The render block of the Monitor branch does not touch the first display
line when the sample is a C `int`. -/
theorem main_monitor_render_line_0 (s : State) (h : isInt s.dist) :
    (main_monitor_render s).lcd.line 0 = s.lcd.line 0 := by
  apply CSE321_LCD.line_0_congr
  intro a ha
  simp only [main_monitor_render]
  rw [blank_first_row 1 (by simp) _ _ a ha, blank_first_row 2 (by simp) _ _ a ha,
    blank_first_row 3 (by simp) _ _ a ha]
  exact number_first_row _ h s a ha

/-- The render block of the Adjust branch does not touch the first display
line when the threshold is a C `int`. -/
theorem main_adjust_render_line_0 (s : State) (h : isInt s.minDistance) :
    (main_adjust_render s).lcd.line 0 = s.lcd.line 0 := by
  apply CSE321_LCD.line_0_congr
  intro a ha
  simp only [main_adjust_render]
  rw [blank_first_row 1 (by simp) _ _ a ha, blank_first_row 2 (by simp) _ _ a ha]
  exact number_first_row _ h s a ha

/-- The first display line once `printMenu` has redrawn it with `menu1`. -/
theorem line_0_menu1 (lcd : CSE321_LCD) :
    (lcd.clear.print menu1).line 0 = "Social Distance ".data := by
  rw [CSE321_LCD.clear_eq]
  rfl

/-- The first display line once `printMenu` has redrawn it with `menu2`. -/
theorem line_0_menu2 (lcd : CSE321_LCD) :
    (lcd.clear.print menu2).line 0 = "Set new distance".data := by
  rw [CSE321_LCD.clear_eq]
  rfl

/-- The first display line once the alarm branch has printed `warning`. -/
theorem line_0_warning (lcd : CSE321_LCD) :
    ((lcd.setCursor 0 0).print warning).line 0 = "Please Back Up! ".data := by
  rw [CSE321_LCD.setCursor_0_0]
  unfold CSE321_LCD.line
  have h := CSE321_LCD.print_first_row warning { lcd with cursor := 0x00 } (by decide)
    (show 0 + warning.length ≤ 0x27 by decide)
  simp only [h]
  rfl

/-! ## Top-line rendering -/

theorem printMenu_lcd (text : List Char) (s : State) :
    (printMenu text s).lcd = if s.printed = false then s.lcd.clear.print text else s.lcd := by
  unfold printMenu
  split <;> rfl

theorem printMenu_trace (text : List Char) (s : State) :
    (printMenu text s).trace =
      s.trace ++ (if s.printed = false then [Effect.lcd_clear, Effect.lcd_print text] else []) := by
  unfold printMenu
  split <;> simp [lcd_print, lcd_clear, emit]

theorem printMenu_printed (text : List Char) (s : State) :
    (printMenu text s).printed = true := by
  rw [printMenu_frame]

theorem printMenu_of_printed (text : List Char) (s : State) (h : s.printed = true) :
    printMenu text s = s := by
  unfold printMenu
  rw [if_neg (by simp [h])]

/-- C9. `printMenu(text)` with `printed` true makes no call at all and returns
the state it was given.  With `printed` false it calls `lcd.clear()` and
`lcd.print(text)`, after which the first display line shows `text` from column
0, blank beyond its end (for a text without NUL that fits the first row of the
display memory).  In both cases `printed` is true on return, so that a second
call right after the first changes nothing and adds no call to the trace. -/
theorem printMenu_edge_triggered (text : List Char) (s : State) :
    (s.printed = true → printMenu text s = s) ∧
    (s.printed = false →
      (printMenu text s).trace = s.trace ++ [Effect.lcd_clear, Effect.lcd_print text] ∧
      (printMenu text s).lcd = s.lcd.clear.print text ∧
      ((∀ c ∈ text, c ≠ '\x00') → text.length ≤ 0x27 →
        (printMenu text s).lcd.line 0 = (List.range 16).map (fun col => text.getD col ' '))) ∧
    (printMenu text s).printed = true ∧
    printMenu text (printMenu text s) = printMenu text s := by
  refine ⟨printMenu_of_printed text s, ?_, printMenu_printed text s,
    printMenu_of_printed text _ (printMenu_printed text s)⟩
  intro h
  refine ⟨?_, ?_, ?_⟩
  · rw [printMenu_trace, if_pos h]
  · rw [printMenu_lcd, if_pos h]
  · intro hnul hlen
    rw [printMenu_lcd, if_pos h, CSE321_LCD.clear_eq]
    unfold CSE321_LCD.line
    apply List.map_congr_left
    intro col _
    rw [CSE321_LCD.print_first_row text _ hnul (by simpa using hlen)]
    simp only [CSE321_LCD.row_offsets, List.getD_cons_zero, Nat.zero_add, Nat.zero_le,
      true_and, Nat.sub_zero]
    split
    · rfl
    · rename_i hc
      rw [List.getD_eq_default _ _ (by omega)]

/-- C9, at the entry of the loop (`printed` true) and one button press later
(`printed` false) with the text `menu2`. -/
theorem printMenu_edge_triggered_witness :
    main_start.printed = true ∧ (ChangeDistance main_start).printed = false ∧
    printMenu menu2 main_start = main_start ∧
    (printMenu menu2 (ChangeDistance main_start)).trace =
      (ChangeDistance main_start).trace ++ [Effect.lcd_clear, Effect.lcd_print menu2] ∧
    (printMenu menu2 (ChangeDistance main_start)).lcd.line 0 =
      (List.range 16).map (fun col => menu2.getD col ' ') :=
  ⟨rfl, rfl,
   (printMenu_edge_triggered menu2 main_start).1 rfl,
   ((printMenu_edge_triggered menu2 (ChangeDistance main_start)).2.1 rfl).1,
   ((printMenu_edge_triggered menu2 (ChangeDistance main_start)).2.1 rfl).2.2
     (by decide) (by decide)⟩

/-- C10. Evaluation at a state the program reaches.  After one Monitor
iteration with distance 100 (below the threshold 183) `printed` is false and
the second display line shows `100`; `printMenu(menu1)` from that state leaves
the second line blank.  In the running program: a following Monitor iteration
with distance 200 prints `200` on the second line and then calls `printMenu`,
so that the iteration ends with a blank second line.  The distances 100 and
200 are what `Ultrasonic` returns for echoes of 5828 and 11656 microseconds. -/
theorem printMenu_blanks_second_line :
    Ultrasonic 5828 = 100 ∧ Ultrasonic 11656 = 200 ∧
    (run main_start [Event.iteration 0 100]).printed = false ∧
    (run main_start [Event.iteration 0 100]).lcd.line 1 = "100             ".data ∧
    (printMenu menu1 (run main_start [Event.iteration 0 100])).lcd.line 1 =
      "                ".data ∧
    (main_monitor_render
      { run main_start [Event.iteration 0 100] with dist := 200 }).lcd.line 1 =
      "200             ".data ∧
    (run main_start [Event.iteration 0 100, Event.iteration 0 200]).lcd.line 1 =
      "                ".data := by
  refine ⟨by decide, by decide, ?_, ?_, ?_, ?_, ?_⟩
  · decide
  · decide
  · decide
  · decide
  · decide

/-! ## Alarm decision -/

theorem main_monitor_alarm_Buzzer (s : State) :
    (main_monitor_alarm s).Buzzer = decide (s.dist < s.minDistance) := by
  unfold main_monitor_alarm
  split
  · rename_i h
    simp [h, BuzzerOn, lcd_print, lcd_setCursor, emit]
  · rename_i h
    dsimp only
    split <;> (rw [printMenu_frame]; simp [h, BuzzerOff, emit])

theorem main_monitor_alarm_printed (s : State) :
    (main_monitor_alarm s).printed = !decide (s.dist < s.minDistance) := by
  unfold main_monitor_alarm
  split
  · rename_i h
    simp [h]
  · rename_i h
    dsimp only
    split <;> (rw [printMenu_printed]; simp [h])

theorem main_monitor_alarm_lcd (s : State) :
    (main_monitor_alarm s).lcd =
      if s.dist < s.minDistance then (s.lcd.setCursor 0 0).print warning
      else if s.printed = false then
        s.lcd.clear.print (if s.isChanging then menu2 else menu1)
      else s.lcd := by
  unfold main_monitor_alarm
  split
  · rfl
  · dsimp only
    split
    · rename_i h
      have h' : s.isChanging = true := h
      rw [printMenu_lcd, h']
      rfl
    · rename_i h
      have h' : s.isChanging = false := by simpa [BuzzerOff, emit] using h
      rw [printMenu_lcd, h']
      rfl

theorem main_monitor_render_dist (s : State) : (main_monitor_render s).dist = s.dist := by
  rw [main_monitor_render_frame]

theorem main_monitor_render_minDistance (s : State) :
    (main_monitor_render s).minDistance = s.minDistance := by
  rw [main_monitor_render_frame]

theorem main_monitor_render_printed (s : State) :
    (main_monitor_render s).printed = s.printed := by
  rw [main_monitor_render_frame]

theorem main_monitor_render_isChanging (s : State) :
    (main_monitor_render s).isChanging = s.isChanging := by
  rw [main_monitor_render_frame]

/-- The part of a Monitor iteration that follows the call of `Ultrasonic` and
the console output, on the first display line. -/
theorem monitor_tail_line_0 (t : State) (hd : isInt t.dist) (hm : t.isChanging = false) :
    (resetDog (main_monitor_alarm (main_monitor_render t))).lcd.line 0 =
      if t.dist < t.minDistance then warning
      else if t.printed = false then menu1 ++ [' ']
      else t.lcd.line 0 := by
  simp only [resetDog, emit, main_monitor_alarm_lcd, main_monitor_render_dist,
    main_monitor_render_minDistance, main_monitor_render_printed,
    main_monitor_render_isChanging, hm]
  split
  · exact line_0_warning _
  · split
    · exact line_0_menu1 _
    · exact main_monitor_render_line_0 t hd

theorem monitor_tail_Buzzer (t : State) :
    (resetDog (main_monitor_alarm (main_monitor_render t))).Buzzer =
      decide (t.dist < t.minDistance) := by
  simp only [resetDog, emit, main_monitor_alarm_Buzzer, main_monitor_render_dist,
    main_monitor_render_minDistance]

theorem monitor_tail_printed (t : State) :
    (resetDog (main_monitor_alarm (main_monitor_render t))).printed =
      !decide (t.dist < t.minDistance) := by
  simp only [resetDog, emit, main_monitor_alarm_printed, main_monitor_render_dist,
    main_monitor_render_minDistance]

theorem main_monitor_Buzzer (distance : Int) (s : State) :
    (main_monitor distance s).Buzzer = decide (distance < s.minDistance) :=
  monitor_tail_Buzzer (printf_d distance (emit Effect.Ultrasonic
    { thread_sleep_for 300 s with dist := distance }))

theorem main_monitor_printed (distance : Int) (s : State) :
    (main_monitor distance s).printed = !decide (distance < s.minDistance) :=
  monitor_tail_printed (printf_d distance (emit Effect.Ultrasonic
    { thread_sleep_for 300 s with dist := distance }))

/-- The first display line after a Monitor iteration in the default menu. -/
theorem main_monitor_line_0 (distance : Int) (hd : isInt distance) (s : State)
    (hm : s.isChanging = false) :
    (main_monitor distance s).lcd.line 0 =
      if distance < s.minDistance then warning
      else if s.printed = false then menu1 ++ [' ']
      else s.lcd.line 0 :=
  monitor_tail_line_0 (printf_d distance (emit Effect.Ultrasonic
    { thread_sleep_for 300 s with dist := distance })) hd hm

/-! ## Invariant of the loop -/

theorem adjust_tail_line_0 (pulses : Int) (t : State) (hlo : 30 ≤ t.minDistance)
    (hhi : t.minDistance ≤ 401) :
    (main_adjust_render (main_adjust_threshold pulses t)).lcd.line 0 = t.lcd.line 0 := by
  rw [main_adjust_render_line_0]
  · rw [main_adjust_threshold_frame]
  · rw [main_adjust_threshold_minDistance]
    unfold isInt
    split_ifs <;> omega

theorem main_adjust_line_0 (pulses : Int) (s : State) (hlo : 30 ≤ s.minDistance)
    (hhi : s.minDistance ≤ 401) :
    (main_adjust pulses s).lcd.line 0 = if s.printed = false then menu2 else s.lcd.line 0 := by
  have hm : (printMenu menu2 s).minDistance = s.minDistance := by rw [printMenu_frame]
  have h := adjust_tail_line_0 pulses
    (emit Effect.encoder_getPulses (thread_sleep_for 50 (BuzzerOff (printMenu menu2 s))))
    (by show 30 ≤ (printMenu menu2 s).minDistance; rw [hm]; exact hlo)
    (by show (printMenu menu2 s).minDistance ≤ 401; rw [hm]; exact hhi)
  have e : (main_adjust pulses s).lcd.line 0 = (printMenu menu2 s).lcd.line 0 := h
  rw [e, printMenu_lcd]
  split
  · exact line_0_menu2 _
  · rfl

theorem main_adjust_printed (pulses : Int) (s : State) :
    (main_adjust pulses s).printed = true := by
  simp only [main_adjust]
  rw [main_adjust_render_frame, main_adjust_threshold_frame, printMenu_frame]
  rfl

theorem inv_main_start : Inv main_start :=
  ⟨by decide, by decide, fun _ => by decide⟩

theorem inv_step (s : State) (ev : Event) (hwf : ev.wf) (h : Inv s) : Inv (step s ev) := by
  obtain ⟨hlo, hhi, hline⟩ := h
  cases ev with
  | button =>
    have hmd : (step s Event.button).minDistance = s.minDistance := by
      simp only [step, ChangeDistance, emit]
      split <;> rfl
    refine ⟨by rw [hmd]; exact hlo, by rw [hmd]; exact hhi, ?_⟩
    intro hp
    have : (step s Event.button).printed = false := by
      simp only [step, ChangeDistance, emit]
      split <;> rfl
    rw [this] at hp
    exact absurd hp (by decide)
  | iteration pulses distance =>
    simp only [step, main_loop]
    split
    · rename_i hc
      refine ⟨?_, ?_, ?_⟩
      · rw [main_adjust_minDistance]; split_ifs <;> omega
      · rw [main_adjust_minDistance]; split_ifs <;> omega
      · intro _
        rw [main_adjust_line_0 pulses s hlo hhi, main_adjust_isChanging, hc]
        split
        · rfl
        · rename_i hp
          have hp' : s.printed = true := by simpa using hp
          rw [hline hp', hc]
    · rename_i hc
      have hc' : s.isChanging = false := by simpa using hc
      refine ⟨?_, ?_, ?_⟩
      · rw [main_monitor_minDistance]; exact hlo
      · rw [main_monitor_minDistance]; exact hhi
      · intro hp
        rw [main_monitor_printed] at hp
        have hd : ¬ distance < s.minDistance := by simpa using hp
        rw [main_monitor_line_0 distance hwf.2 s hc', main_monitor_isChanging, hc', if_neg hd]
        split
        · rfl
        · rename_i hq
          have hq' : s.printed = true := by simpa using hq
          rw [hline hq', hc']

theorem inv_run (events : List Event) :
    ∀ s : State, Inv s → (∀ ev ∈ events, ev.wf) → Inv (run s events) := by
  induction events with
  | nil => intro s h _; exact h
  | cons ev events ih =>
    intro s h hwf
    rw [run_cons]
    exact ih _ (inv_step s ev (hwf ev (List.mem_cons_self _ _)) h)
      (fun e he => hwf e (List.mem_cons_of_mem _ he))

theorem inv_of_reachable (s : State) (h : Reachable s) : Inv s := by
  obtain ⟨events, hwf, rfl⟩ := h
  exact inv_run events main_start inv_main_start hwf

/-- C4. One iteration of the loop from a state reachable from start-up in the
default menu (`isChanging` false), with a distance that is a C `int`.  A
distance below `minDistance` leaves the buzzer running, the first display line
equal to `warning` ("Please Back Up! ") and `printed` false; a distance of at
least `minDistance` leaves the buzzer suspended and the first display line
equal to `menu1` ("Social Distance") followed by a blank column. -/
theorem monitor_alarm_decision (s : State) (hr : Reachable s) (hm : s.isChanging = false)
    (pulses distance : Int) (hd : isInt distance) :
    (distance < s.minDistance →
      (main_loop pulses distance s).Buzzer = true ∧
      (main_loop pulses distance s).lcd.line 0 = warning ∧
      (main_loop pulses distance s).printed = false) ∧
    (s.minDistance ≤ distance →
      (main_loop pulses distance s).Buzzer = false ∧
      (main_loop pulses distance s).lcd.line 0 = menu1 ++ [' ']) := by
  have hl : main_loop pulses distance s = main_monitor distance s := by
    simp [main_loop, hm]
  rw [hl, main_monitor_Buzzer, main_monitor_printed, main_monitor_line_0 distance hd s hm]
  obtain ⟨_, _, hline⟩ := inv_of_reachable s hr
  constructor
  · intro h
    simp [h]
  · intro h
    have h' : ¬ distance < s.minDistance := by omega
    refine ⟨by simp [h'], ?_⟩
    rw [if_neg h']
    split
    · rfl
    · rename_i hq
      have hq' : s.printed = true := by simpa using hq
      rw [hline hq', hm]
      rfl

/-- C4, at the entry of the loop (threshold 183): the distance 100 raises the
alarm and the distance 200 does not. -/
theorem monitor_alarm_decision_witness :
    (Reachable main_start ∧ main_start.isChanging = false ∧ main_start.minDistance = 183) ∧
    ((main_loop 0 100 main_start).Buzzer = true ∧
      (main_loop 0 100 main_start).lcd.line 0 = "Please Back Up! ".data ∧
      (main_loop 0 100 main_start).printed = false) ∧
    ((main_loop 0 200 main_start).Buzzer = false ∧
      (main_loop 0 200 main_start).lcd.line 0 = "Social Distance ".data) :=
  have hr : Reachable main_start := ⟨[], by simp, rfl⟩
  ⟨⟨hr, rfl, rfl⟩,
   (monitor_alarm_decision main_start hr rfl 0 100 (by decide)).1 (by decide),
   (monitor_alarm_decision main_start hr rfl 0 200 (by decide)).2 (by decide)⟩

/-! ## Threshold range -/

/-- In the Adjust menu, `n` iterations with a falling encoder count lower the
threshold by `n` as long as none of them starts below 31. -/
theorem run_leftTurns (n : Nat) :
    ∀ (start : Int) (s : State), s.isChanging = true → s.pulse = start →
      30 ≤ s.minDistance - n → s.minDistance ≤ 400 →
      (run s (leftTurns start n)).minDistance = s.minDistance - n ∧
      (run s (leftTurns start n)).pulse = start - n ∧
      (run s (leftTurns start n)).isChanging = true := by
  induction n with
  | zero =>
    intro start s hc hp _ _
    simp [leftTurns, run, hc, hp]
  | succ n ih =>
    intro start s hc hp hlo hhi
    simp only [leftTurns, run_cons, step, main_loop, hc, if_true]
    have hm : (main_adjust (start - 1) s).minDistance = s.minDistance - 1 := by
      rw [main_adjust_minDistance]
      have h1 : ¬ s.minDistance < 31 := by push_cast at hlo; omega
      have h2 : ¬ s.minDistance > 400 := by omega
      have h3 : s.pulse ≠ start - 1 := by omega
      have h4 : ¬ s.pulse < start - 1 := by omega
      rw [if_neg h1, if_neg h2, if_pos h3, if_neg h4]
    have hq : (main_adjust (start - 1) s).pulse = start - 1 := by
      rw [main_adjust_pulse]
      have h1 : ¬ s.minDistance < 31 := by push_cast at hlo; omega
      have h2 : ¬ s.minDistance > 400 := by omega
      have h3 : s.pulse ≠ start - 1 := by omega
      rw [if_neg h1, if_neg h2, if_pos h3]
    have hi := ih (start - 1) (main_adjust (start - 1) s)
      (by rw [main_adjust_isChanging]; exact hc) hq
      (by rw [hm]; push_cast at hlo; omega) (by rw [hm]; omega)
    rw [hm] at hi
    push_cast
    refine ⟨by rw [hi.1]; ring, by rw [hi.2.1]; ring, hi.2.2⟩

theorem leftTurns_wf (n : Nat) :
    ∀ start : Int, -2147483648 ≤ start - n → start ≤ 2147483647 →
      ∀ ev ∈ leftTurns start n, ev.wf := by
  induction n with
  | zero => intro start _ _ ev hev; simp [leftTurns] at hev
  | succ n ih =>
    intro start hlo hhi ev hev
    simp only [leftTurns, List.mem_cons] at hev
    push_cast at hlo
    rcases hev with h | h
    · subst h
      simp only [Event.wf, isInt]
      omega
    · exact ih (start - 1) (by omega) (by omega) ev h

/-- C1. Evaluation of the program on a sequence it can receive: one button
press, then 153 Adjust iterations in each of which the encoder count is one
lower than in the one before (all readings are C `int`s).  The loop is in the
Adjust menu with the threshold at 31 after the 152nd of them, the 153rd ends
with the threshold at 30, and the Monitor iteration that follows the next
button press compares the distance 30 (an echo of 1749 microseconds) with the
threshold 30 and leaves the buzzer suspended. -/
theorem threshold_leaves_range :
    Ultrasonic 1749 = 30 ∧
    (∀ ev ∈ Event.button :: leftTurns 0 153, ev.wf) ∧
    (run main_start (Event.button :: leftTurns 0 152)).isChanging = true ∧
    (run main_start (Event.button :: leftTurns 0 152)).minDistance = 31 ∧
    (run main_start (Event.button :: leftTurns 0 153)).minDistance = 30 ∧
    (main_monitor 30 (ChangeDistance
      (run main_start (Event.button :: leftTurns 0 153)))).Buzzer = false := by
  have h0 : (ChangeDistance main_start).isChanging = true := rfl
  have h1 : (ChangeDistance main_start).pulse = 0 := rfl
  have h2 : (ChangeDistance main_start).minDistance = 183 := rfl
  have hrun : ∀ events, run main_start (Event.button :: events) =
      run (ChangeDistance main_start) events := fun _ => rfl
  have a := run_leftTurns 152 0 (ChangeDistance main_start) h0 h1 (by rw [h2]; decide)
    (by rw [h2]; decide)
  have b := run_leftTurns 153 0 (ChangeDistance main_start) h0 h1 (by rw [h2]; decide)
    (by rw [h2]; decide)
  rw [h2] at a b
  rw [hrun, hrun]
  have hb : (run (ChangeDistance main_start) (leftTurns 0 153)).minDistance = 30 := by
    rw [b.1]; rfl
  refine ⟨by decide, ?_, a.2.2, ?_, hb, ?_⟩
  · intro ev hev
    rcases List.mem_cons.1 hev with h | h
    · subst h; trivial
    · exact leftTurns_wf 153 0 (by decide) (by decide) ev h
  · rw [a.1]; rfl
  · rw [main_monitor_Buzzer]
    have hc : (ChangeDistance (run (ChangeDistance main_start) (leftTurns 0 153))).minDistance
        = 30 := by
      rw [ChangeDistance_minDistance, hb]
    rw [hc]
    rfl

/-! ## Ranging formula -/

theorem excessBits_le (fuel : Nat) :
    ∀ n j : Nat, n < 2 ^ (24 + j) → excessBits fuel n ≤ j := by
  induction fuel with
  | zero => intro n j _; simp [excessBits]
  | succ fuel ih =>
    intro n j h
    simp only [excessBits]
    split
    · exact Nat.zero_le _
    · rename_i hn
      cases j with
      | zero => exact absurd h hn
      | succ j =>
        have : n / 2 < 2 ^ (24 + j) := by
          have e : 2 ^ (24 + (j + 1)) = 2 * 2 ^ (24 + j) := by ring
          rw [e] at h
          omega
        have := ih (n / 2) j this
        omega

theorem roundToMultiple_le (n sh : Nat) : roundToMultiple n sh ≤ n + 2 ^ sh / 2 := by
  unfold roundToMultiple
  dsimp only
  split
  · exact Nat.le_add_right _ _
  · rename_i hsh
    have hp : 2 ^ sh = 2 * 2 ^ (sh - 1) := by
      conv_lhs => rw [show sh = (sh - 1) + 1 by omega]
      ring
    have hd := Nat.div_add_mod n (2 ^ sh)
    have hm : (n / 2 ^ sh + 1) * 2 ^ sh = 2 ^ sh * (n / 2 ^ sh) + 2 ^ sh := by ring
    have hm2 : n / 2 ^ sh * 2 ^ sh = 2 ^ sh * (n / 2 ^ sh) := by ring
    split
    · rename_i hr
      rw [hm]
      omega
    · rw [hm2]
      omega

theorem roundToMultiple_ge (n sh b : Nat) (hb : 2 ^ sh ∣ b) (h : b ≤ n) :
    b ≤ roundToMultiple n sh := by
  unfold roundToMultiple
  dsimp only
  obtain ⟨m, rfl⟩ := hb
  have hq : m ≤ n / 2 ^ sh := by
    rw [Nat.le_div_iff_mul_le (by positivity)]
    rw [Nat.mul_comm]; exact h
  split
  · exact h
  · split
    · calc 2 ^ sh * m = m * 2 ^ sh := Nat.mul_comm _ _
        _ ≤ (n / 2 ^ sh + 1) * 2 ^ sh := Nat.mul_le_mul_right _ (by omega)
    · calc 2 ^ sh * m = m * 2 ^ sh := Nat.mul_comm _ _
        _ ≤ (n / 2 ^ sh) * 2 ^ sh := Nat.mul_le_mul_right _ hq

theorem roundBinary32_small (n : Nat) (h : n < 2 ^ 24) : roundBinary32 n = n := by
  have : excessBits 64 n = 0 := by
    have := excessBits_le 64 n 0 h
    omega
  simp [roundBinary32, this, roundToMultiple]

/-- Below 52331 microseconds the binary32 computation agrees with the exact
quotient. -/
theorem ultrasonic_nat (e : Nat) (he : e ≤ 52330) :
    roundBinary32 (roundBinary32 e * 9212705) / 2 ^ 29 = e * 3432 / 200000 := by
  rw [roundBinary32_small e (by norm_num; omega)]
  have hd := Nat.div_add_mod (e * 3432) 200000
  have hmod := Nat.mod_lt (e * 3432) (show 200000 > 0 by decide)
  generalize hg : e * 3432 / 200000 = g at hd
  generalize e * 3432 % 200000 = t at hd hmod
  apply Nat.div_eq_of_lt_le
  · apply roundToMultiple_ge
    · have hs : excessBits 64 (e * 9212705) ≤ 15 := excessBits_le 64 _ 15 (by norm_num; omega)
      exact Dvd.dvd.mul_left (pow_dvd_pow 2 (by omega)) g
    · norm_num; omega
  · refine lt_of_le_of_lt (roundToMultiple_le _ _) ?_
    by_cases hlow : e ≤ 29836
    · have hs : excessBits 64 (e * 9212705) ≤ 14 := excessBits_le 64 _ 14 (by norm_num; omega)
      have hp : 2 ^ excessBits 64 (e * 9212705) ≤ 2 ^ 14 := Nat.pow_le_pow_right (by decide) hs
      norm_num at hp ⊢
      omega
    · have hs : excessBits 64 (e * 9212705) ≤ 15 := excessBits_le 64 _ 15 (by norm_num; omega)
      have hp : 2 ^ excessBits 64 (e * 9212705) ≤ 2 ^ 15 := Nat.pow_le_pow_right (by decide) hs
      have ht : t ≠ 199992 := by omega
      norm_num at hp ⊢
      omega

/-- The constant of the model is the binary32 value nearest to 0.03432: it has
24 significant bits and lies within half a unit in the last place, `2 ^ (-29)`,
of 3432 / 100000. -/
theorem constant_nearest :
    2 ^ 23 ≤ 9212705 ∧ 9212705 < 2 ^ 24 ∧
    2 * (9212705 * 100000 - 3432 * 2 ^ 28) ≤ 100000 ∧ 3432 * 2 ^ 28 ≤ 9212705 * 100000 := by
  decide

/-- The halvings of `excessBits` suffice for every argument below `2 ^ (24 + fuel)`:
what is left has at most 24 bits, and exactly 24 when bits were dropped. -/
theorem excessBits_normal (fuel : Nat) :
    ∀ n : Nat, n < 2 ^ (24 + fuel) →
      n / 2 ^ excessBits fuel n < 2 ^ 24 ∧
      (2 ^ 24 ≤ n → 2 ^ 23 ≤ n / 2 ^ excessBits fuel n) := by
  induction fuel with
  | zero =>
    intro n h
    simp only [excessBits, pow_zero, Nat.div_one]
    exact ⟨h, fun h' => absurd h (by omega)⟩
  | succ fuel ih =>
    intro n h
    simp only [excessBits]
    split
    · rename_i hn
      simp only [pow_zero, Nat.div_one]
      exact ⟨hn, fun h' => absurd hn (by omega)⟩
    · rename_i hn
      have e : 2 ^ (24 + (fuel + 1)) = 2 * 2 ^ (24 + fuel) := by ring
      rw [e] at h
      have h2 : n / 2 < 2 ^ (24 + fuel) := by omega
      obtain ⟨a, b⟩ := ih (n / 2) h2
      have hdiv : n / 2 ^ (excessBits fuel (n / 2) + 1) = n / 2 / 2 ^ excessBits fuel (n / 2) := by
        rw [Nat.div_div_eq_div_mul, pow_succ, Nat.mul_comm]
      rw [hdiv]
      refine ⟨a, fun _ => ?_⟩
      by_cases hbig : 2 ^ 24 ≤ n / 2
      · exact b hbig
      · have hz : excessBits fuel (n / 2) = 0 := by
          have := excessBits_le fuel (n / 2) 0 (by simpa using hbig)
          omega
        rw [hz]
        simp only [pow_zero, Nat.div_one]
        norm_num at hn ⊢
        omega

/-- C6, a reading at which the result is not the exact quotient: for an echo
of 52331 microseconds `Ultrasonic` returns 898, while `52331 * 3432 / 200000`
truncates to 897. -/
theorem Ultrasonic_52331 :
    Ultrasonic 52331 = 898 ∧ (52331 : Int) * 3432 / 200000 = 897 ∧
    Ultrasonic 52331 ≠ 52331 * 3432 / 200000 := by
  decide

/-- C6, amended. For every non-negative timer reading `e`, `Ultrasonic` returns
a non-negative number; for `e` up to 52330 microseconds it returns
`floor (e * 3432 / 200000)`; and a reading of 1000 microseconds gives 17. -/
theorem Ultrasonic_formula (e : Int) (h0 : 0 ≤ e) :
    0 ≤ Ultrasonic e ∧
    (e ≤ 52330 → Ultrasonic e = e * 3432 / 200000) ∧
    Ultrasonic 1000 = 17 := by
  have hneg : ¬ e < 0 := by omega
  refine ⟨?_, ?_, by decide⟩
  · simp only [Ultrasonic, if_neg hneg]
    exact Int.natCast_nonneg _
  · intro h
    obtain ⟨n, rfl⟩ := Int.eq_ofNat_of_zero_le h0
    have hn : n ≤ 52330 := by omega
    simp only [Ultrasonic, if_neg hneg, Int.natAbs_ofNat]
    rw [ultrasonic_nat n hn]
    push_cast
    rfl

/-- C6 amended, at the readings 1000 and 52330 microseconds. -/
theorem Ultrasonic_formula_witness :
    (0 : Int) ≤ 52330 ∧ 0 ≤ Ultrasonic 52330 ∧
    Ultrasonic 52330 = 52330 * 3432 / 200000 ∧ Ultrasonic 1000 = 17 :=
  ⟨by decide, (Ultrasonic_formula 52330 (by decide)).1,
   (Ultrasonic_formula 52330 (by decide)).2.1 (by decide),
   (Ultrasonic_formula 1000 (by decide)).2.2⟩

/-! ## Decimal text -/

/-- The accumulator of `Nat.toDigitsCore` is a suffix of its result. -/
theorem toDigitsCore_append (fuel : Nat) :
    ∀ (n : Nat) (acc : List Char),
      Nat.toDigitsCore 10 fuel n acc = Nat.toDigitsCore 10 fuel n [] ++ acc := by
  induction fuel with
  | zero => intro n acc; simp [Nat.toDigitsCore]
  | succ fuel ih =>
    intro n acc
    simp only [Nat.toDigitsCore]
    split
    · simp
    · rw [ih (n / 10) (Nat.digitChar (n % 10) :: acc), ih (n / 10) [Nat.digitChar (n % 10)]]
      simp

/-- Any fuel above `n` gives the digits of `n`. -/
theorem toDigitsCore_fuel (fuel : Nat) :
    ∀ (n : Nat) (acc : List Char), n < fuel →
      Nat.toDigitsCore 10 fuel n acc = Nat.toDigitsCore 10 (n + 1) n acc := by
  induction fuel using Nat.strong_induction_on with
  | _ fuel ih =>
    intro n acc h
    cases fuel with
    | zero => omega
    | succ fuel =>
      simp only [Nat.toDigitsCore]
      split
      · rfl
      · rename_i hq
        have h1 : n / 10 < fuel := by omega
        have h2 : n / 10 < n := by omega
        rw [ih fuel (by omega) (n / 10) _ h1, ih n (by omega) (n / 10) _ h2]

/-- A number below ten is printed as one digit. -/
theorem toDigits_lt_ten (n : Nat) (h : n < 10) : Nat.toDigits 10 n = [Nat.digitChar n] := by
  have h0 : n / 10 = 0 := by omega
  have h1 : n % 10 = n := by omega
  simp [Nat.toDigits, Nat.toDigitsCore, h0, h1]

/-- A number of at least ten is printed as its tenth followed by its last
digit. -/
theorem toDigits_ge_ten (n : Nat) (h : 10 ≤ n) :
    Nat.toDigits 10 n = Nat.toDigits 10 (n / 10) ++ [Nat.digitChar (n % 10)] := by
  have h0 : ¬ n / 10 = 0 := by omega
  have h2 : n / 10 < n := by omega
  have e : Nat.toDigitsCore 10 (n + 1) n [] =
      Nat.toDigitsCore 10 n (n / 10) [Nat.digitChar (n % 10)] := by
    simp only [Nat.toDigitsCore, if_neg h0]
  show Nat.toDigitsCore 10 (n + 1) n [] = _
  rw [e, toDigitsCore_fuel n (n / 10) _ h2, toDigitsCore_append]
  rfl

/-- No decimal digit is the NUL character. -/
theorem digitChar_ne_nul (d : Nat) (h : d < 10) : Nat.digitChar d ≠ '\x00' := by
  interval_cases d <;> decide

/-- The decimal text of a number of at most four digits, digit by digit. -/
theorem toDigits_shape (n : Nat) :
    Nat.toDigits 10 n =
      if n < 10 then [Nat.digitChar n]
      else if n < 100 then [Nat.digitChar (n / 10), Nat.digitChar (n % 10)]
      else if n < 1000 then
        [Nat.digitChar (n / 10 / 10), Nat.digitChar (n / 10 % 10), Nat.digitChar (n % 10)]
      else if n < 10000 then
        [Nat.digitChar (n / 10 / 10 / 10), Nat.digitChar (n / 10 / 10 % 10),
          Nat.digitChar (n / 10 % 10), Nat.digitChar (n % 10)]
      else Nat.toDigits 10 n := by
  split
  · rename_i h
    exact toDigits_lt_ten n h
  · split
    · rw [toDigits_ge_ten n (by omega), toDigits_lt_ten (n / 10) (by omega)]
      rfl
    · split
      · rw [toDigits_ge_ten n (by omega), toDigits_ge_ten (n / 10) (by omega),
          toDigits_lt_ten (n / 10 / 10) (by omega)]
        rfl
      · split
        · rw [toDigits_ge_ten n (by omega), toDigits_ge_ten (n / 10) (by omega),
            toDigits_ge_ten (n / 10 / 10) (by omega),
            toDigits_lt_ten (n / 10 / 10 / 10) (by omega)]
          rfl
        · rfl

/-- The display after the render block of the Monitor branch, as a chain of
driver calls. -/
theorem main_monitor_render_lcd (s : State) :
    (main_monitor_render s).lcd =
      (fun l3 : CSE321_LCD => if s.dist < 10 then (l3.setCursor 1 1).print [' '] else l3)
      ((fun l2 : CSE321_LCD => if s.dist < 100 then (l2.setCursor 2 1).print [' '] else l2)
      ((fun l1 : CSE321_LCD => if s.dist < 1000 then (l1.setCursor 3 1).print [' '] else l1)
      ((s.lcd.setCursor 0 1).print (sprintf_d s.dist)))) := by
  by_cases h1 : s.dist < 1000 <;> by_cases h2 : s.dist < 100 <;> by_cases h3 : s.dist < 10 <;>
    simp [main_monitor_render, lcd_print, lcd_setCursor, emit, h1, h2, h3]

/-- The first four columns of the second display line. -/
theorem line_1_take_4 (lcd : CSE321_LCD) :
    (lcd.line 1).take 4 =
      [lcd.ddram 0x40, lcd.ddram 0x41, lcd.ddram 0x42, lcd.ddram 0x43] := rfl

/-- C12. The render block of the Monitor branch, for a distance between 0 and
9999 and any previous content of the display: the decimal text of the distance
has at most four characters, and afterwards columns 0 to 3 of the second
display line hold that text followed by blanks. -/
theorem main_monitor_render_columns (s : State) (h0 : 0 ≤ s.dist) (h1 : s.dist ≤ 9999) :
    (sprintf_d s.dist).length ≤ 4 ∧
    ((main_monitor_render s).lcd.line 1).take 4 =
      sprintf_d s.dist ++ List.replicate (4 - (sprintf_d s.dist).length) ' ' := by
  obtain ⟨n, hn⟩ := Int.eq_ofNat_of_zero_le h0
  have hn9 : n ≤ 9999 := by omega
  have hs : sprintf_d s.dist = Nat.toDigits 10 n := by
    rw [hn]
    simp [sprintf_d]
  rw [line_1_take_4, main_monitor_render_lcd, hs, toDigits_shape n]
  have d0 := digitChar_ne_nul (n % 10) (by omega)
  have d1 := digitChar_ne_nul (n / 10 % 10) (by omega)
  have d2 := digitChar_ne_nul (n / 10 / 10 % 10) (by omega)
  by_cases c1 : n < 10
  · have e1 : s.dist < 10 := by omega
    have e2 : s.dist < 100 := by omega
    have e3 : s.dist < 1000 := by omega
    have d : Nat.digitChar n ≠ '\x00' := digitChar_ne_nul n c1
    simp [c1, e1, e2, e3, CSE321_LCD.print, CSE321_LCD.writeData, CSE321_LCD.nextAddress,
      CSE321_LCD.setCursor_0_1, CSE321_LCD.setCursor_1_1, CSE321_LCD.setCursor_2_1,
      CSE321_LCD.setCursor_3_1, d]
  · by_cases c2 : n < 100
    · have e1 : ¬ s.dist < 10 := by omega
      have e2 : s.dist < 100 := by omega
      have e3 : s.dist < 1000 := by omega
      have d : Nat.digitChar (n / 10) ≠ '\x00' := digitChar_ne_nul _ (by omega)
      simp [c1, c2, e1, e2, e3, CSE321_LCD.print, CSE321_LCD.writeData,
        CSE321_LCD.nextAddress, CSE321_LCD.setCursor_0_1, CSE321_LCD.setCursor_2_1,
        CSE321_LCD.setCursor_3_1, d, d0]
    · by_cases c3 : n < 1000
      · have e1 : ¬ s.dist < 10 := by omega
        have e2 : ¬ s.dist < 100 := by omega
        have e3 : s.dist < 1000 := by omega
        have d : Nat.digitChar (n / 10 / 10) ≠ '\x00' := digitChar_ne_nul _ (by omega)
        simp [c1, c2, c3, e1, e2, e3, CSE321_LCD.print, CSE321_LCD.writeData,
          CSE321_LCD.nextAddress, CSE321_LCD.setCursor_0_1, CSE321_LCD.setCursor_3_1, d, d0, d1]
      · have c4 : n < 10000 := by omega
        have e1 : ¬ s.dist < 10 := by omega
        have e2 : ¬ s.dist < 100 := by omega
        have e3 : ¬ s.dist < 1000 := by omega
        have d : Nat.digitChar (n / 10 / 10 / 10) ≠ '\x00' := digitChar_ne_nul _ (by omega)
        simp [c1, c2, c3, c4, e1, e2, e3, CSE321_LCD.print, CSE321_LCD.writeData,
          CSE321_LCD.nextAddress, CSE321_LCD.setCursor_0_1, d, d0, d1, d2]

/-- C12, at the distance 57 over a second line that showed `1234`. -/
theorem main_monitor_render_columns_witness :
    ((0 : Int) ≤ 57 ∧ (57 : Int) ≤ 9999) ∧
    (({ main_start with dist := 1234 } : State).dist = 1234 ∧
      ((main_monitor_render { main_start with dist := 1234 }).lcd.line 1).take 4 =
        "1234".data) ∧
    ((main_monitor_render
        { main_monitor_render { main_start with dist := 1234 } with dist := 57 }).lcd.line 1).take 4
      = "57  ".data :=
  ⟨⟨by decide, by decide⟩, ⟨rfl, by decide⟩,
   (main_monitor_render_columns
      { main_monitor_render { main_start with dist := 1234 } with dist := 57 }
      (by decide) (by decide)).2⟩

/-! ## Bounded overshoot -/

theorem step_minDistance_bounds (s : State) (ev : Event)
    (h : 30 ≤ s.minDistance ∧ s.minDistance ≤ 401) :
    30 ≤ (step s ev).minDistance ∧ (step s ev).minDistance ≤ 401 := by
  cases ev with
  | button =>
    simp only [step]
    rw [ChangeDistance_minDistance]
    exact h
  | iteration pulses distance =>
    simp only [step, main_loop]
    split
    · rw [main_adjust_minDistance]
      split_ifs <;> omega
    · rw [main_monitor_minDistance]
      exact h

theorem run_minDistance_bounds (events : List Event) :
    ∀ s : State, (30 ≤ s.minDistance ∧ s.minDistance ≤ 401) →
      30 ≤ (run s events).minDistance ∧ (run s events).minDistance ≤ 401 := by
  induction events with
  | nil => intro s h; exact h
  | cons ev events ih =>
    intro s h
    rw [run_cons]
    exact ih _ (step_minDistance_bounds s ev h)

/-- C13. After any finite sequence of button presses and loop iterations from
start-up, with arbitrary encoder readings and distances, `minDistance` is
between 30 and 401.  From such a state an Adjust iteration turns 30 into 31 and
401 into 400 whatever the encoder reading, and the steps that may come before
it (a Monitor iteration, a run of `ChangeDistance`) leave `minDistance` as it
is. -/
theorem bounded_overshoot (events : List Event) :
    30 ≤ (run main_start events).minDistance ∧
    (run main_start events).minDistance ≤ 401 ∧
    (∀ pulses : Int,
      ((run main_start events).minDistance = 30 →
        (main_adjust pulses (run main_start events)).minDistance = 31) ∧
      ((run main_start events).minDistance = 401 →
        (main_adjust pulses (run main_start events)).minDistance = 400)) ∧
    (∀ distance : Int,
      (main_monitor distance (run main_start events)).minDistance =
        (run main_start events).minDistance) ∧
    (ChangeDistance (run main_start events)).minDistance =
      (run main_start events).minDistance := by
  have hb := run_minDistance_bounds events main_start ⟨by decide, by decide⟩
  refine ⟨hb.1, hb.2, ?_, fun d => main_monitor_minDistance d _, ChangeDistance_minDistance _⟩
  intro pulses
  rw [main_adjust_minDistance]
  constructor
  · intro h
    rw [h]
    rfl
  · intro h
    rw [h]
    rfl

/-! ## Formatting buffers -/

theorem toDigits_length_pos (n : Nat) : 1 ≤ (Nat.toDigits 10 n).length := by
  by_cases h : n < 10
  · rw [toDigits_lt_ten n h]
    simp
  · rw [toDigits_ge_ten n (by omega)]
    simp

/-- C14. Evaluation at values the program formats.  The start-up threshold
183, which the first Adjust iteration after a button press passes to
`sprintf(Ebuffer, "%d", minDistance)`, has the text `183`: with its NUL that is
4 bytes, one more than the 3 bytes of the array.  The same holds for every
value of at least 100 (thresholds 100 to 400, distances 100 to 9999); only
values from 0 to 99 fit. -/
theorem sprintf_exceeds_buffer :
    (run main_start [Event.button, Event.iteration 0 0]).minDistance = 183 ∧
    sprintf_d 183 = "183".data ∧
    sprintf_d_bytes 183 = 4 ∧
    buffer_size < sprintf_d_bytes 183 ∧
    (∀ n : Int, 100 ≤ n → buffer_size < sprintf_d_bytes n) ∧
    (∀ n : Int, 0 ≤ n → n ≤ 99 → sprintf_d_bytes n ≤ buffer_size) := by
  refine ⟨by decide, by decide, by decide, by decide, ?_, ?_⟩
  · intro n hn
    obtain ⟨m, rfl⟩ := Int.eq_ofNat_of_zero_le (by omega : 0 ≤ n)
    have hm : 100 ≤ m := by omega
    have hs : sprintf_d (m : Int) = Nat.toDigits 10 m := by simp [sprintf_d]
    have hp := toDigits_length_pos (m / 10 / 10)
    simp only [sprintf_d_bytes, buffer_size, hs]
    rw [toDigits_ge_ten m (by omega), toDigits_ge_ten (m / 10) (by omega)]
    simp only [List.length_append, List.length_singleton]
    omega
  · intro n h0 h1
    obtain ⟨m, rfl⟩ := Int.eq_ofNat_of_zero_le h0
    have hm : m ≤ 99 := by omega
    have hs : sprintf_d (m : Int) = Nat.toDigits 10 m := by simp [sprintf_d]
    simp only [sprintf_d_bytes, buffer_size, hs]
    rw [toDigits_shape m]
    split
    · simp
    · rw [if_pos (by omega)]
      simp

/-! ## Mutex -/

theorem Unguarded.nil (s : State) : Unguarded s s :=
  ⟨[], by simp, by simp⟩

theorem Unguarded.andThen {a b c : State} (h1 : Unguarded a b) (h2 : Unguarded b c) :
    Unguarded a c := by
  obtain ⟨es1, e1, n1⟩ := h1
  obtain ⟨es2, e2, n2⟩ := h2
  refine ⟨es1 ++ es2, ?_, ?_⟩
  · rw [e2, e1, List.append_assoc]
  · intro e he
    rcases List.mem_append.1 he with h | h
    · exact n1 e h
    · exact n2 e h

theorem Unguarded.sameTrace {a b c : State} (h : Unguarded a b) (e : c.trace = b.trace) :
    Unguarded a c := by
  obtain ⟨es, e1, n1⟩ := h
  exact ⟨es, by rw [e, e1], n1⟩

theorem unguarded_emit (e : Effect) (h : isLockCall e = false) (s : State) :
    Unguarded s (emit e s) :=
  ⟨[e], rfl, by simpa using h⟩

theorem unguarded_lcd_setCursor (col row : Nat) (s : State) :
    Unguarded s (lcd_setCursor col row s) :=
  ⟨[Effect.lcd_setCursor col row], rfl, by simp [isLockCall]⟩

theorem unguarded_lcd_print (text : List Char) (s : State) : Unguarded s (lcd_print text s) :=
  ⟨[Effect.lcd_print text], rfl, by simp [isLockCall]⟩

theorem unguarded_lcd_clear (s : State) : Unguarded s (lcd_clear s) :=
  ⟨[Effect.lcd_clear], rfl, by simp [isLockCall]⟩

theorem unguarded_blank (col : Nat) (p : Prop) [Decidable p] (s : State) :
    Unguarded s (if p then lcd_print [' '] (lcd_setCursor col 1 s) else s) := by
  split
  · exact (unguarded_lcd_setCursor col 1 s).andThen (unguarded_lcd_print _ _)
  · exact Unguarded.nil s

theorem unguarded_printMenu (text : List Char) (s : State) :
    Unguarded s (printMenu text s) := by
  unfold printMenu
  split
  · exact ((unguarded_lcd_clear s).andThen (unguarded_lcd_print text _)).sameTrace rfl
  · exact Unguarded.nil s

theorem unguarded_main_adjust_render (s : State) : Unguarded s (main_adjust_render s) := by
  simp only [main_adjust_render]
  exact (unguarded_lcd_setCursor 0 1 s).andThen ((unguarded_lcd_print _ _).andThen
    ((unguarded_blank 2 _ _).andThen (unguarded_blank 1 _ _)))

theorem unguarded_main_monitor_render (s : State) : Unguarded s (main_monitor_render s) := by
  simp only [main_monitor_render]
  exact (unguarded_lcd_setCursor 0 1 s).andThen ((unguarded_lcd_print _ _).andThen
    ((unguarded_blank 3 _ _).andThen ((unguarded_blank 2 _ _).andThen (unguarded_blank 1 _ _))))

theorem unguarded_main_adjust_threshold (pulses : Int) (s : State) :
    Unguarded s (main_adjust_threshold pulses s) := by
  simp only [main_adjust_threshold, printf_d]
  repeat' split
  all_goals first
    | exact (Unguarded.nil s).sameTrace rfl
    | exact (unguarded_emit (Effect.printf _) rfl s).sameTrace rfl

theorem unguarded_main_monitor_alarm (s : State) : Unguarded s (main_monitor_alarm s) := by
  unfold main_monitor_alarm
  split
  · exact ((unguarded_emit Effect.Buzzer_resume rfl s).andThen
      ((unguarded_lcd_setCursor 0 0 _).andThen (unguarded_lcd_print warning _))).sameTrace rfl
  · dsimp only
    have h : Unguarded s (BuzzerOff s) :=
      (unguarded_emit Effect.Buzzer_suspend rfl s).sameTrace rfl
    split
    · exact h.andThen (unguarded_printMenu _ _)
    · exact h.andThen (unguarded_printMenu _ _)

theorem unguarded_main_adjust (pulses : Int) (s : State) :
    Unguarded s (main_adjust pulses s) := by
  simp only [main_adjust]
  have h1 := unguarded_printMenu menu2 s
  have h2 : Unguarded (printMenu menu2 s) (BuzzerOff (printMenu menu2 s)) :=
    (unguarded_emit Effect.Buzzer_suspend rfl _).sameTrace rfl
  have h3 := unguarded_emit (Effect.thread_sleep_for 50) rfl (BuzzerOff (printMenu menu2 s))
  have h4 := unguarded_emit Effect.encoder_getPulses rfl
    (thread_sleep_for 50 (BuzzerOff (printMenu menu2 s)))
  exact h1.andThen (h2.andThen (h3.andThen (h4.andThen
    ((unguarded_main_adjust_threshold pulses _).andThen (unguarded_main_adjust_render _)))))

theorem unguarded_main_monitor (distance : Int) (s : State) :
    Unguarded s (main_monitor distance s) := by
  have h1 := unguarded_emit (Effect.thread_sleep_for 300) rfl s
  have h2 : Unguarded (thread_sleep_for 300 s)
      (emit Effect.Ultrasonic { thread_sleep_for 300 s with dist := distance }) :=
    ⟨[Effect.Ultrasonic], rfl, by simp [isLockCall]⟩
  have h3 := unguarded_emit (Effect.printf (sprintf_d distance ++ ['\n'])) rfl
    (emit Effect.Ultrasonic { thread_sleep_for 300 s with dist := distance })
  have h4 := h1.andThen (h2.andThen (h3.andThen
    ((unguarded_main_monitor_render _).andThen (unguarded_main_monitor_alarm _))))
  exact h4.andThen (unguarded_emit Effect.dog_kick rfl _)

/-- C11. Evaluation of the program.  No iteration of the loop body makes a
call on the mutex, from any state and with any inputs: its reads of
`isChanging` and the test and assignment of `printed` in `printMenu` happen
without `lock` held, while `ChangeDistance` brackets its accesses with
`lock.lock()` and `lock.unlock()`.  A run of the handler can therefore fall
between the test of `printed` and `printed = true`: from the state one button
press after start-up, the Adjust iteration so interleaved ends in the default
menu (`isChanging` false) with `printed` true and the first display line still
`Set new distance`, and the Monitor iteration that follows (distance 200, no
alarm) leaves that line in place. -/
theorem main_loop_without_lock :
    (∀ (pulses distance : Int) (s : State), ∃ es : List Effect,
      (main_loop pulses distance s).trace = s.trace ++ es ∧
      ∀ e ∈ es, isLockCall e = false) ∧
    (∀ s : State, (ChangeDistance s).trace =
      s.trace ++ [Effect.lock_lock, Effect.printf "switched menu\n".data, Effect.lock_unlock]) ∧
    (main_adjust_preempted 0 (ChangeDistance main_start)).isChanging = false ∧
    (main_adjust_preempted 0 (ChangeDistance main_start)).printed = true ∧
    (main_adjust_preempted 0 (ChangeDistance main_start)).lcd.line 0 =
      "Set new distance".data ∧
    (main_loop 0 200 (main_adjust_preempted 0 (ChangeDistance main_start))).isChanging = false ∧
    (main_loop 0 200 (main_adjust_preempted 0 (ChangeDistance main_start))).lcd.line 0 =
      "Set new distance".data := by
  refine ⟨?_, ?_, by decide, by decide, by decide, by decide, by decide⟩
  · intro pulses distance s
    unfold main_loop
    split
    · exact unguarded_main_adjust pulses s
    · exact unguarded_main_monitor distance s
  · intro s
    simp only [ChangeDistance, emit]
    split <;> simp

end SocialDistancing
